import Mathlib

/-!
# ISDuBA: workflow transitions and document listing/export

A shallow embedding of `pkg/web/status.go` (`changeStatusAll`) and
`pkg/web/documents.go` (`viewDocument`, `overviewDocuments`), with the
properties of the handlers stated and proved over it.

Conventions of the embedding:

* a handler is a pure function from its inputs (controller configuration, request
  context, data store) to a result record holding the HTTP response, the
  committed store and the chronological list of store operations it ran;
* functions of the packages `models` and `database`, whose code is not part of
  the files embedded here, are parameters (`Models`, `Database`);
* a Go `error` value is a `GoError`: whether `errors.Is(err, pgx.ErrNoRows)`
  holds, its `Error()` text, and what `encoding/json` emits for the value.
-/

namespace ISDuBA

/-! ## Errors and responses -/

/-- A Go `error` value, as far as the handlers observe it. `noRows` is
`errors.Is(err, pgx.ErrNoRows)`, `text` is `err.Error()`, and `marshalled` is
what `encoding/json` makes of the value itself when it is put in a `gin.H`: the
object of the exported fields of its dynamic type, each with its value, or
`none` when the value cannot be marshalled (an exported field that holds a
function, say). The three are observations of one value and are not assumed to
be independent of each other. -/
structure GoError where
  noRows : Bool
  text : String
  marshalled : Option (List (String × String))
deriving DecidableEq, Repr

/-- The value `pgx.ErrNoRows` (made by `errors.New`, so an object without
fields for `encoding/json`). -/
def ErrNoRows : GoError := ⟨true, "no rows in result set", some []⟩

/-- The call `fmt.Errorf(msg + "%w", err)`: the text is prefixed, `errors.Is` sees
through the wrapper, and the wrapper type has no exported field. -/
def GoError.wrap (msg : String) (err : GoError) : GoError :=
  ⟨err.noRows, msg ++ err.text, some []⟩

/-- A value of Go type `any` as it is scanned from a result column. -/
inductive AnyValue where
  | null
  | bool (b : Bool)
  | int (i : Int)
  | str (s : String)
deriving DecidableEq, Repr

/-- A value stored under a key of a `gin.H`. -/
inductive HValue where
  | str (s : String)
  | int (i : Int)
  | err (fields : List (String × String))
  | results (rows : List (List (String × AnyValue)))
deriving DecidableEq, Repr

/-- The type `gin.H`, a map from keys to values, as an association list. -/
abbrev H := List (String × HValue)

/-- The body written with a response. -/
inductive Body where
  | empty
  | json (h : H)
  | data (contentType : String) (content : List UInt8) (headers : List (String × String))
deriving DecidableEq, Repr

/-- The HTTP response of a handler. -/
structure Response where
  status : Nat
  body : Body
deriving DecidableEq, Repr

/-- The call `ctx.JSON(code, h)`. -/
def JSON (code : Nat) (h : H) : Response := ⟨code, .json h⟩

/-- The call `ctx.JSON(code, gin.H{key: err})` for an error value `err`, of which
`marshalled` is what `encoding/json` makes: the status is written first, the
body is the object holding the marshalled value under the key, and no body is
written when the value cannot be marshalled. The `Error()` text of the value is
not consulted. -/
def JSONValue (code : Nat) (key : String) (marshalled : Option (List (String × String))) :
    Response :=
  ⟨code,
    match marshalled with
    | some fields => .json [(key, .err fields)]
    | none => .empty⟩

def StatusOK : Nat := 200
def StatusBadRequest : Nat := 400
def StatusForbidden : Nat := 403
def StatusNotFound : Nat := 404
def StatusInternalServerError : Nat := 500

/-! ## Data model -/

abbrev Workflow := String
abbrev TLP := String

/-- The type `models.PublishersTLPs`: a map from publisher to the permitted
classifications; `len(tlps)` is the number of its keys. -/
abbrev PublishersTLPs := List (String × List TLP)

/-- The struct `advisoryState`: one requested transition. -/
structure advisoryState where
  Publisher : String
  TrackingID : String
  State : Workflow
deriving DecidableEq, Repr

abbrev advisoryStates := List advisoryState

/-- A row of table `advisories`. -/
structure Advisory where
  tracking_id : String
  publisher : String
  state : Workflow
deriving DecidableEq, Repr

/-- A row of table `documents`. -/
structure Document where
  id : Int
  tracking_id : String
  publisher : String
  tlp : TLP
  original : List UInt8
deriving DecidableEq, Repr

/-- A row of table `events_log`. -/
structure EventLog where
  event : String
  state : Workflow
  actor : Option String
  documents_id : Int
deriving DecidableEq, Repr

/-- The data store as `changeStatusAll` reads and writes it. -/
structure Store where
  advisories : List Advisory
  documents : List Document
  events_log : List EventLog
deriving DecidableEq, Repr

/-- The functions of package `models` used by the handlers; their code is not
in the embedded files, so they are parameters. -/
structure Models where
  TransitionsRoles : Workflow → Workflow → List String
  Allowed : PublishersTLPs → String → TLP → Bool
  AsConditions : PublishersTLPs → String

/-- The part of the controller configuration the handlers read. -/
structure Controller where
  AnonymousEventLogging : Bool
deriving DecidableEq, Repr

/-- The request context: what the handlers read from `gin.Context`. `uid` is
`ctx.GetString("uid")`, `tlps` is `c.tlps(ctx)`, `roles` are the roles of the
caller, `params` are the path parameters and `query` the URL query values. -/
structure Context where
  uid : String
  roles : List String
  tlps : PublishersTLPs
  params : List (String × String)
  query : List (String × String)
deriving DecidableEq, Repr

/-- Modelled from the spec: `hasAnyRole` is a method of the controller whose
code is missing; the caller passes when it "holds at least one of the required
roles". -/
def hasAnyRole (ctx : Context) (roles : List String) : Bool :=
  roles.any fun r => ctx.roles.contains r

/-! ## Store operations of `changeStatusAll` -/

def findAdvisorySQL : String :=
  "SELECT id, state::text, tlp " ++
  "FROM advisories ads " ++
  "JOIN documents docs ON (ads.tracking_id, ads.publisher) = (docs.tracking_id, docs.Publisher) " ++
  "WHERE docs.publisher = $1 AND docs.tracking_id = $2"

def updateStateSQL : String :=
  "UPDATE advisories SET state = $1::workflow WHERE (tracking_id, publisher) = ($2, $3)"

def insertLogSQL : String :=
  "INSERT INTO events_log (event, state, actor, documents_id) " ++
  "VALUES ('state_change', $1::workflow, $2, $3)"

/-- A store operation, as recorded in the trace of a handler. -/
inductive Event where
  | acquire
  | beginTx
  | queryRow (sql : String) (args : List AnyValue)
  | query (sql : String) (args : List AnyValue)
  | exec (sql : String) (args : List AnyValue)
  | commit
  | rollback
  | createQuerySQL (sql : String)
  | createCountSQL (sql : String)
deriving DecidableEq, Repr

/-- The rows of statement `findAdvisory`: the join of `advisories` and
`documents` on `(tracking_id, publisher)`, restricted to the given publisher and
tracking id, each row giving `(id, state, tlp)`. -/
def findAdvisoryRows (s : Store) (publisher trackingID : String) :
    List (Int × String × String) :=
  s.advisories.flatMap fun ads =>
    s.documents.filterMap fun docs =>
      if ads.tracking_id = docs.tracking_id ∧ ads.publisher = docs.publisher ∧
          docs.publisher = publisher ∧ docs.tracking_id = trackingID then
        some (docs.id, ads.state, docs.tlp)
      else none

/-- The call `tx.QueryRow(rctx, findAdvisory, ...).Scan(...)` on a healthy
store: the first row, or `pgx.ErrNoRows`. -/
def findAdvisory (s : Store) (publisher trackingID : String) :
    Except GoError (Int × String × String) :=
  match (findAdvisoryRows s publisher trackingID).head? with
  | some row => .ok row
  | none => .error ErrNoRows

/-- Statement `updateState` on a healthy store. -/
def updateState (s : Store) (state : Workflow) (trackingID publisher : String) : Store :=
  { s with advisories := s.advisories.map fun ads =>
      if ads.tracking_id = trackingID ∧ ads.publisher = publisher then
        { ads with state := state }
      else ads }

/-- Statement `insertLog` on a healthy store. -/
def insertLog (s : Store) (state : Workflow) (actor : Option String) (documentID : Int) :
    Store :=
  { s with events_log := s.events_log ++ [⟨"state_change", state, actor, documentID⟩] }

/-- The state of a running transaction: its working copy of the store, the
faults still to be injected (one entry per store operation, `none` for an
operation that works; an exhausted list means no further fault), the store
operations run so far, and for each executed state update the working copy it
was run on together with the request item. -/
structure Tx where
  store : Store
  faults : List (Option GoError)
  trace : List Event
  applied : List (Store × advisoryState)
deriving DecidableEq, Repr

/-- Run one store operation: record it and take the next fault. -/
def Tx.op (tx : Tx) (ev : Event) : Option GoError × Tx :=
  match tx.faults with
  | [] => (none, { tx with trace := tx.trace ++ [ev] })
  | f :: fs => (f, { tx with faults := fs, trace := tx.trace ++ [ev] })

/-- The flags `forbidden, noTransition, bad` of `changeStatusAll`. -/
structure Flags where
  forbidden : Bool := false
  noTransition : Bool := false
  bad : Bool := false
deriving DecidableEq, Repr

/-- How one pass of the loop over `inputs` ends: it falls through to the next
item, or the callback returns `nil` with a flag set, or it returns an error. -/
inductive LoopResult where
  | next (tx : Tx)
  | returnNil (flags : Flags) (tx : Tx)
  | returnErr (err : GoError) (tx : Tx)
deriving DecidableEq, Repr

/-- The variable `actor` of `changeStatusAll`. -/
def actor (c : Controller) (ctx : Context) : Option String :=
  if !c.AnonymousEventLogging then some ctx.uid else none

/-- A `*string` passed as a statement argument: `nil` is SQL `NULL`. -/
def stringPtrArg : Option String → AnyValue
  | some v => .str v
  | none => .null

/-- The body of the loop `for i := range inputs` of `changeStatusAll`. -/
def loopBody (m : Models) (c : Controller) (ctx : Context) (tx : Tx)
    (input : advisoryState) : LoopResult :=
  if input.Publisher = "" ∨ input.TrackingID = "" then
    .returnNil { bad := true } tx
  else
    match tx.op (.queryRow findAdvisorySQL [.str input.Publisher, .str input.TrackingID]) with
    | (some err, tx) => .returnErr err tx
    | (none, tx) =>
      match findAdvisory tx.store input.Publisher input.TrackingID with
      | .error err => .returnErr err tx
      | .ok (documentID, current, tlp) =>
        -- Check if we are allowed to access it.
        if ctx.tlps.length > 0 ∧ !m.Allowed ctx.tlps input.Publisher tlp then
          .returnNil { forbidden := true } tx
        else
          -- Check if the transition is allowed to user.
          let roles := m.TransitionsRoles current input.State
          if roles.length = 0 then
            .returnNil { noTransition := true } tx
          else if !hasAnyRole ctx roles then
            .returnNil { forbidden := true } tx
          else
            -- At this point the state change can be done.
            match tx.op (.exec updateStateSQL
                [.str input.State, .str input.TrackingID, .str input.Publisher]) with
            | (some err, tx) => .returnErr err tx
            | (none, tx) =>
              let tx := { tx with
                applied := tx.applied ++ [(tx.store, input)]
                store := updateState tx.store input.State input.TrackingID input.Publisher }
              -- Log the event
              match tx.op (.exec insertLogSQL
                  [.str input.State, stringPtrArg (actor c ctx), .int documentID]) with
              | (some err, tx) => .returnErr err tx
              | (none, tx) =>
                .next { tx with store := insertLog tx.store input.State (actor c ctx) documentID }

/-- The loop `for i := range inputs` of `changeStatusAll`. -/
def loop (m : Models) (c : Controller) (ctx : Context) : Tx → advisoryStates → LoopResult
  | tx, [] => .next tx
  | tx, input :: rest =>
    match loopBody m c ctx tx input with
    | .next tx => loop m c ctx tx rest
    | r => r

/-- What `c.db.Run` hands back to `changeStatusAll`, with the final value of the
flags, the committed store, the store operations run and the executed state
updates. -/
structure RunResult where
  err : Option GoError
  flags : Flags
  store : Store
  trace : List Event
  applied : List (Store × advisoryState)
deriving DecidableEq, Repr

/-- The callback given to `c.db.Run` in `changeStatusAll`: begin a transaction,
run the loop, commit. The deferred `tx.Rollback` rolls the transaction back,
discarding the working copy, when the callback returns before `tx.Commit`; once
`tx.Commit` has been called the transaction is closed and the deferred call runs
no store operation. A failed commit commits nothing. -/
def callback (m : Models) (c : Controller) (ctx : Context) (s : Store) (tx : Tx)
    (inputs : advisoryStates) : RunResult :=
  match tx.op .beginTx with
  | (some err, tx) => ⟨some err, {}, s, tx.trace, tx.applied⟩
  | (none, tx) =>
    match loop m c ctx tx inputs with
    | .returnNil flags tx => ⟨none, flags, s, tx.trace ++ [.rollback], tx.applied⟩
    | .returnErr err tx => ⟨some err, {}, s, tx.trace ++ [.rollback], tx.applied⟩
    | .next tx =>
      match tx.op .commit with
      | (some err, tx) => ⟨some err, {}, s, tx.trace, tx.applied⟩
      | (none, tx) => ⟨none, {}, tx.store, tx.trace, tx.applied⟩

/-- Modelled from the spec: `c.db.Run` is a method of the database package whose
code is missing; "each request acquires one connection from a shared, externally
managed pool" and the callback runs on it. Acquiring is a store operation that
can fail, in which case the callback does not run. -/
def Run (m : Models) (c : Controller) (ctx : Context) (s : Store)
    (faults : List (Option GoError)) (inputs : advisoryStates) : RunResult :=
  match (Tx.mk s faults [] []).op .acquire with
  | (some err, tx) => ⟨some err, {}, s, tx.trace, tx.applied⟩
  | (none, tx) => callback m c ctx s tx inputs

/-- The result of a call of `changeStatusAll`. -/
structure StatusResult where
  response : Response
  store : Store
  trace : List Event
  applied : List (Store × advisoryState)
deriving DecidableEq, Repr

/-- The mapping of the outcome of `c.db.Run` to the response at the end of
`changeStatusAll`. -/
def respond (r : RunResult) : Response :=
  match r.err with
  | some err =>
    if err.noRows then JSON StatusNotFound [("error", .str "advisory not found")]
    else JSON StatusInternalServerError [("error", .str err.text)]
  | none =>
    if r.flags.bad then JSON StatusBadRequest [("error", .str "bad input")]
    else if r.flags.forbidden then JSON StatusForbidden [("error", .str "access denied")]
    else if r.flags.noTransition then
      JSON StatusBadRequest [("error", .str "state transition not possible")]
    else JSON StatusOK [("message", .str "transition done")]

/-- The handler `changeStatusAll`. -/
def changeStatusAll (m : Models) (c : Controller) (ctx : Context) (s : Store)
    (faults : List (Option GoError)) (inputs : advisoryStates) : StatusResult :=
  let r := Run m c ctx s faults inputs
  ⟨respond r, r.store, r.trace, r.applied⟩

/-! ## The handlers of `documents.go` -/

/-- The functions of package `database` used by the handlers; their code is not
in the embedded files, so they are parameters, as is the type `Expr` of parsed
expressions. `Where` gives the predicate text, the replacements and the aliases;
`CheckProjections` gives the error or `none` for `nil`. -/
structure Database (Expr : Type) where
  Parse : String → Except GoError Expr
  And : Expr → Expr → Expr
  Where : Expr → String × List AnyValue × List (String × String)
  CreateQuerySQL :
    List String → List (String × String) → String → String → Int → Int → String
  CreateCountSQL : String → Bool → String
  CheckProjections : List String → List (String × String) → Option GoError
  CreateOrder : List String → List (String × String) → Except GoError String

/-- What `conn.Query` hands back once iterated: for each row in the order the
store returns them the outcome of `rows.Scan`, and the value of `rows.Err()`. -/
structure Rows where
  scans : List (Except GoError (List AnyValue))
  err : Option GoError

/-- The data store as the handlers of `documents.go` see it: whether `c.db.Run`
fails to provide a connection, the outcome of `conn.QueryRow(...).Scan(&dst)`
for a destination of type `[]byte` and of type `int64`, and of `conn.Query`. -/
structure Conn where
  acquire : Option GoError
  QueryRowScanBytes : String → List AnyValue → Except GoError (List UInt8)
  QueryRowScanInt64 : String → List AnyValue → Except GoError Int
  Query : String → List AnyValue → Except GoError Rows

/-- The result of a call of a handler of `documents.go`. -/
structure DocResult where
  response : Response
  trace : List Event
deriving DecidableEq, Repr

/-- The call `ctx.GetQuery(key)`: the first value of the key, if it is there. -/
def Context.GetQuery (ctx : Context) (key : String) : Option String :=
  (ctx.query.find? fun kv => kv.1 = key).map Prod.snd

/-- The call `ctx.Query(key)`. -/
def Context.Query (ctx : Context) (key : String) : String :=
  (ctx.GetQuery key).getD ""

/-- The call `ctx.DefaultQuery(key, defaultValue)`. -/
def Context.DefaultQuery (ctx : Context) (key defaultValue : String) : String :=
  (ctx.GetQuery key).getD defaultValue

/-- The call `ctx.Param(key)`. -/
def Context.Param (ctx : Context) (key : String) : String :=
  ((ctx.params.find? fun kv => kv.1 = key).map Prod.snd).getD ""

/-- The predicate `unicode.IsSpace`. -/
def isSpace (ch : Char) : Bool :=
  ch = '\t' || ch = '\n' || ch.val = 0x0B || ch.val = 0x0C || ch = '\r' || ch = ' ' ||
  ch.val = 0x85 || ch.val = 0xA0 || ch.val = 0x1680 ||
  (0x2000 ≤ ch.val && ch.val ≤ 0x200A) ||
  ch.val = 0x2028 || ch.val = 0x2029 || ch.val = 0x202F || ch.val = 0x205F ||
  ch.val = 0x3000

/-- The scan of `strings.Fields`: `cur` holds the characters of the field being
read, last one first. -/
def fieldsAux : List Char → List Char → List String
  | [], cur => if cur = [] then [] else [String.mk cur.reverse]
  | ch :: rest, cur =>
    if isSpace ch then
      if cur = [] then fieldsAux rest [] else String.mk cur.reverse :: fieldsAux rest []
    else fieldsAux rest (ch :: cur)

/-- The call `strings.Fields(s)`: the maximal runs of characters that are not
white space. -/
def Fields (s : String) : List String := fieldsAux s.toList []

/-- The type `strconv.NumError` of the error of a failed `strconv.ParseInt`:
the failing function, the input, and the reason (`strconv.ErrSyntax` or
`strconv.ErrRange`, kept by its text). -/
structure NumError where
  Func : String
  Num : String
  Err : String
deriving DecidableEq, Repr

/-- What `encoding/json` makes of a `*strconv.NumError`: its three exported
fields, of which `Err` is a value made by `errors.New`, an object without
fields. -/
def NumError.marshalled (err : NumError) : Option (List (String × String)) :=
  some [("Func", err.Func), ("Num", err.Num), ("Err", "\x7b\x7d")]

/-- The value of a run of decimal digits, `none` when a character is not one. -/
def parseDigits : List Char → Nat → Option Nat
  | [], acc => some acc
  | ch :: rest, acc =>
    if '0' ≤ ch ∧ ch ≤ '9' then parseDigits rest (acc * 10 + (ch.toNat - '0'.toNat))
    else none

/-- The call `strconv.ParseInt(s, 10, 64)`: an optional sign and at least one
decimal digit, the value within the range of `int64`. -/
def ParseInt (s : String) : Except NumError Int :=
  let (neg, digits) :=
    match s.toList with
    | '+' :: rest => (false, rest)
    | '-' :: rest => (true, rest)
    | rest => (false, rest)
  if digits = [] then .error ⟨"ParseInt", s, "invalid syntax"⟩
  else
    match parseDigits digits 0 with
    | none => .error ⟨"ParseInt", s, "invalid syntax"⟩
    | some un =>
      if !neg ∧ un ≥ 2 ^ 63 then .error ⟨"ParseInt", s, "value out of range"⟩
      else if neg ∧ un > 2 ^ 63 then .error ⟨"ParseInt", s, "value out of range"⟩
      else .ok (if neg then -(un : Int) else (un : Int))

/-- The block `// Filter the allowed` that `viewDocument` and
`overviewDocuments` both contain: with a non-empty permitted set the parsed
conditions are ANDed to the expression; a parse failure of the conditions is
answered 500. -/
def filterAllowed {Expr : Type} (db : Database Expr) (m : Models) (ctx : Context)
    (expr : Expr) : Except Response Expr :=
  if ctx.tlps.length > 0 then
    let conditions := m.AsConditions ctx.tlps
    match db.Parse conditions with
    | .error err => .error (JSONValue StatusInternalServerError "error:" err.marshalled)
    | .ok tlpExpr => .ok (db.And expr tlpExpr)
  else .ok expr

/-- The handler `viewDocument` from the call `expr.Where()` on. -/
def viewDocumentWith {Expr : Type} (db : Database Expr) (conn : Conn) (expr : Expr) :
    DocResult :=
  let fields := ["original"]
  let (whereSQL, replacements, aliases) := db.Where expr
  let sql := db.CreateQuerySQL fields aliases whereSQL "" (-1) (-1)
  let run : Except GoError (List UInt8) × List Event :=
    match conn.acquire with
    | some err => (.error err, [.createQuerySQL sql, .acquire])
    | none =>
      (conn.QueryRowScanBytes sql replacements,
        [.createQuerySQL sql, .acquire, .queryRow sql replacements])
  match run with
  | (.error err, trace) =>
    if err.noRows then ⟨JSON StatusNotFound [("error", .str "document not found")], trace⟩
    else ⟨JSONValue StatusInternalServerError "error" err.marshalled, trace⟩
  | (.ok original, trace) =>
    ⟨⟨StatusOK, .data "application/json" original
      [("Content-Disposition", "attachment; filename=\"document.json\"")]⟩, trace⟩

/-- The query text `fmt.Sprintf("$id %d int =", id)`. -/
def idQuery (id : Int) : String := "$id " ++ toString id ++ " int ="

/-- The handler `viewDocument`. -/
def viewDocument {Expr : Type} (db : Database Expr) (m : Models) (conn : Conn)
    (ctx : Context) : DocResult :=
  let idS := ctx.Param "id"
  match ParseInt idS with
  | .error err => ⟨JSONValue StatusBadRequest "error" err.marshalled, []⟩
  | .ok id =>
    let query := idQuery id
    match db.Parse query with
    | .error err => ⟨JSONValue StatusBadRequest "error:" err.marshalled, []⟩
    | .ok expr =>
      -- Filter the allowed
      match filterAllowed db m ctx expr with
      | .error response => ⟨response, []⟩
      | .ok expr => viewDocumentWith db conn expr

/-- The assignment `result[p] = values[i]` on a Go map kept as an association
list: the value of a key that is there is replaced. -/
def mapSet (result : List (String × AnyValue)) (p : String) (v : AnyValue) :
    List (String × AnyValue) :=
  if result.any (fun kv => kv.1 = p) then
    result.map fun kv => if kv.1 = p then (p, v) else kv
  else result ++ [(p, v)]

/-- The loop `for i, p := range fields { result[p] = values[i] }` from index `i`
on; a column the row does not have reads as `nil`. -/
def rowMapFrom (values : List AnyValue) :
    Nat → List String → List (String × AnyValue) → List (String × AnyValue)
  | _, [], result => result
  | i, p :: rest, result => rowMapFrom values (i + 1) rest (mapSet result p (values.getD i .null))

/-- The map `result` built for one row. -/
def rowMap (fields : List String) (values : List AnyValue) : List (String × AnyValue) :=
  rowMapFrom values 0 fields []

/-- The loop `for rows.Next()` of `overviewDocuments`. -/
def scanRows (fields : List String) :
    List (Except GoError (List AnyValue)) → List (List (String × AnyValue)) →
    Except GoError (List (List (String × AnyValue)))
  | [], results => .ok results
  | .error err :: _, _ => .error (err.wrap "scan failed: ")
  | .ok values :: rest, results => scanRows fields rest (results ++ [rowMap fields values])

/-- The part of the callback of `overviewDocuments` after the count: nothing
when no field is requested, else the query and the rows. -/
def overviewRows {Expr : Type} (db : Database Expr) (conn : Conn) (fields : List String)
    (whereSQL : String) (replacements : List AnyValue) (aliases : List (String × String))
    (order : String) (limit offset : Int) :
    Except GoError (List (List (String × AnyValue))) × List Event :=
  -- Skip fields if they are not requested.
  if fields.length = 0 then (.ok [], [])
  else
    let sql := db.CreateQuerySQL fields aliases whereSQL order limit offset
    match conn.Query sql replacements with
    | .error err =>
      (.error (err.wrap "cannot fetch results: "), [.createQuerySQL sql, .query sql replacements])
    | .ok rows =>
      match scanRows fields rows.scans [] with
      | .error err => (.error err, [.createQuerySQL sql, .query sql replacements])
      | .ok results =>
        match rows.err with
        | some err => (.error err, [.createQuerySQL sql, .query sql replacements])
        | none => (.ok results, [.createQuerySQL sql, .query sql replacements])

/-- The call of `c.db.Run` in `overviewDocuments` with its callback: the count
if it is asked for, then the rows. -/
def overviewRun {Expr : Type} (db : Database Expr) (conn : Conn) (calcCount : Bool)
    (fields : List String) (whereSQL : String) (replacements : List AnyValue)
    (aliases : List (String × String)) (order : String) (limit offset : Int) :
    Except GoError (Int × List (List (String × AnyValue))) × List Event :=
  match conn.acquire with
  | some err => (.error err, [.acquire])
  | none =>
    if calcCount then
      let countSQL := db.CreateCountSQL whereSQL (aliases.length > 0)
      match conn.QueryRowScanInt64 countSQL replacements with
      | .error err =>
        (.error (err.wrap "cannot calculate count "),
          [.acquire, .createCountSQL countSQL, .queryRow countSQL replacements])
      | .ok count =>
        match overviewRows db conn fields whereSQL replacements aliases order limit offset with
        | (.error err, trace) =>
          (.error err,
            [.acquire, .createCountSQL countSQL, .queryRow countSQL replacements] ++ trace)
        | (.ok results, trace) =>
          (.ok (count, results),
            [.acquire, .createCountSQL countSQL, .queryRow countSQL replacements] ++ trace)
    else
      match overviewRows db conn fields whereSQL replacements aliases order limit offset with
      | (.error err, trace) => (.error err, .acquire :: trace)
      | (.ok results, trace) => (.ok (0, results), .acquire :: trace)

/-- The response body `h` of a successful `overviewDocuments`. -/
def overviewBody (calcCount : Bool) (count : Int) (results : List (List (String × AnyValue))) :
    H :=
  (if calcCount then [("count", HValue.int count)] else []) ++
  (if results.length > 0 then [("documents", HValue.results results)] else [])

/-- The end of `overviewDocuments`, from the outcome of `c.db.Run` on. -/
def overviewAnswer (calcCount : Bool)
    (run : Except GoError (Int × List (List (String × AnyValue))) × List Event) : DocResult :=
  match run with
  | (.error err, trace) => ⟨JSONValue StatusInternalServerError "error" err.marshalled, trace⟩
  | (.ok (count, results), trace) =>
    ⟨JSON StatusOK (overviewBody calcCount count results), trace⟩

/-- The handler `overviewDocuments` from the call `expr.Where()` on. -/
def overviewDocumentsWith {Expr : Type} (db : Database Expr) (conn : Conn) (ctx : Context)
    (expr : Expr) : DocResult :=
  let (whereSQL, replacements, aliases) := db.Where expr
  let fields := Fields (ctx.DefaultQuery "columns" "id title tracking_id version publisher")
  match db.CheckProjections fields aliases with
  | some err => ⟨JSONValue StatusBadRequest "error:" err.marshalled, []⟩
  | none =>
    let orderFields := Fields (ctx.DefaultQuery "order" "publisher tracking_id -version")
    match db.CreateOrder orderFields aliases with
    | .error err => ⟨JSONValue StatusBadRequest "error:" err.marshalled, []⟩
    | .ok order =>
      let calcCount : Bool := ctx.Query "count" ≠ ""
      let limit : Except NumError Int :=
        if ctx.Query "limit" ≠ "" then ParseInt (ctx.Query "limit") else .ok (-1)
      match limit with
      | .error err => ⟨JSONValue StatusBadRequest "error:" err.marshalled, []⟩
      | .ok limit =>
        let offset : Except NumError Int :=
          if ctx.Query "offset" ≠ "" then ParseInt (ctx.Query "offset") else .ok (-1)
        match offset with
        | .error err => ⟨JSONValue StatusBadRequest "error:" err.marshalled, []⟩
        | .ok offset =>
          overviewAnswer calcCount
            (overviewRun db conn calcCount fields whereSQL replacements aliases order limit
              offset)

/-- The handler `overviewDocuments`. -/
def overviewDocuments {Expr : Type} (db : Database Expr) (m : Models) (conn : Conn)
    (ctx : Context) : DocResult :=
  let query := ctx.DefaultQuery "query" "true"
  match db.Parse query with
  | .error err => ⟨JSONValue StatusBadRequest "error:" err.marshalled, []⟩
  | .ok expr =>
    -- Filter the allowed
    match filterAllowed db m ctx expr with
    | .error response => ⟨response, []⟩
    | .ok expr => overviewDocumentsWith db conn ctx expr

/-! ## A sample deployment, used to run the handlers on concrete requests -/

/-- A sample transition table: `new → read` for editors and reviewers,
`read → assessing` for editors. -/
def sampleTransitionsRoles (frm target : Workflow) : List String :=
  if frm = "new" ∧ target = "read" then ["editor", "reviewer"]
  else if frm = "read" ∧ target = "assessing" then ["editor"]
  else []

/-- A sample scope check: the classification must be listed for the publisher. -/
def sampleAllowed (tlps : PublishersTLPs) (publisher : String) (tlp : TLP) : Bool :=
  tlps.any fun p => p.1 = publisher ∧ p.2.contains tlp

def sampleModels : Models :=
  ⟨sampleTransitionsRoles, sampleAllowed, fun _ => "$tlp WHITE ="⟩

def sampleStore : Store :=
  { advisories := [⟨"T-1", "ACME", "new"⟩, ⟨"T-2", "ACME", "read"⟩]
    documents := [⟨7, "T-1", "ACME", "WHITE", [123, 125]⟩, ⟨8, "T-2", "ACME", "RED", [123, 125]⟩]
    events_log := [] }

def sampleCtx : Context :=
  { uid := "alice", roles := ["editor"], tlps := [], params := [], query := [] }

def sampleController : Controller := ⟨false⟩

/-- A batch whose items all pass on the sample store for the sample caller. -/
def samplePassing : advisoryStates :=
  [⟨"ACME", "T-1", "read"⟩, ⟨"ACME", "T-2", "assessing"⟩]

/-- A batch whose second item is blank. -/
def sampleBlank : advisoryStates :=
  [⟨"ACME", "T-1", "read"⟩, ⟨"", "T-2", "assessing"⟩]

/-- A batch `[valid1, invalid, valid2]`: the second item asks for an advisory
that does not exist. -/
def sampleFailing : advisoryStates :=
  [⟨"ACME", "T-1", "read"⟩, ⟨"ACME", "T-9", "read"⟩, ⟨"ACME", "T-2", "assessing"⟩]

/-- A sample expression type for the sample `database` package. -/
inductive SampleExpr where
  | all
  | idIs (id : Int)
  | tlpIs (tlp : TLP)
  | both (a b : SampleExpr)
deriving DecidableEq, Repr

/-- The rows a sample expression selects. -/
def SampleExpr.holds : SampleExpr → Document → Bool
  | .all, _ => true
  | .idIs id, d => d.id = id
  | .tlpIs tlp, d => d.tlp = tlp
  | .both a b, d => a.holds d && b.holds d

/-- The predicate text of a sample expression. -/
def SampleExpr.text : SampleExpr → String
  | .all => "TRUE"
  | .idIs id => "id = " ++ toString id
  | .tlpIs tlp => "tlp = " ++ tlp
  | .both a b => "(" ++ a.text ++ ") AND (" ++ b.text ++ ")"

/-- A sample parser, knowing three query texts. -/
def sampleParse (query : String) : Except GoError SampleExpr :=
  if query = "true" then .ok .all
  else if query = "$id 8 int =" then .ok (.idIs 8)
  else if query = "$tlp WHITE =" then .ok (.tlpIs "WHITE")
  else .error ⟨false, "cannot parse " ++ query, some []⟩

/-- A sample whitelist check: the known columns. -/
def sampleCheckProjections (fields : List String) (_ : List (String × String)) :
    Option GoError :=
  match fields.find? fun p =>
      !(["id", "title", "tracking_id", "version", "publisher", "original"].contains p) with
  | some p => some ⟨false, "unknown field " ++ p, some []⟩
  | none => none

def sampleDatabase : Database SampleExpr where
  Parse := sampleParse
  And := .both
  Where := fun e => (e.text, [], [])
  CreateQuerySQL := fun fields _ whereSQL order _ _ =>
    "SELECT " ++ ", ".intercalate fields ++ " FROM documents WHERE " ++ whereSQL ++ order
  CreateCountSQL := fun whereSQL _ => "SELECT count(*) FROM documents WHERE " ++ whereSQL
  CheckProjections := sampleCheckProjections
  CreateOrder := fun orderFields _ => .ok (" ORDER BY " ++ ", ".intercalate orderFields)

/-- A healthy store in which no statement selects a row. -/
def emptyConn : Conn where
  acquire := none
  QueryRowScanBytes := fun _ _ => .error ErrNoRows
  QueryRowScanInt64 := fun _ _ => .ok 0
  Query := fun _ _ => .ok ⟨[], none⟩

/-- A store error that is not "no rows". -/
def sampleStoreError : GoError := ⟨false, "relation advisories does not exist", some []⟩

/-- A store whose every operation fails with the given error. -/
def failingConn (err : GoError) : Conn where
  acquire := none
  QueryRowScanBytes := fun _ _ => .error err
  QueryRowScanInt64 := fun _ _ => .error err
  Query := fun _ _ => .error err

/-- A caller restricted to `WHITE` documents of `ACME` who exports document 8. -/
def sampleExportCtx : Context :=
  { uid := "alice", roles := ["editor"], tlps := [("ACME", ["WHITE"])],
    params := [("id", "8")], query := [] }

/-- Sample documents: document 8 is classified `RED`. -/
def sampleDocs : List Document :=
  [⟨7, "T-1", "ACME", "WHITE", [123, 125]⟩, ⟨8, "T-2", "ACME", "RED", [123, 125]⟩]

/-- Sample documents without a document 8. -/
def sampleDocsWithout : List Document :=
  [⟨7, "T-1", "ACME", "WHITE", [123, 125]⟩]

/-- A list request for a column that is not in the whitelist. -/
def sampleSecretCtx : Context :=
  { uid := "alice", roles := ["editor"], tlps := [],
    params := [], query := [("columns", "id secret")] }

/-- A list request with default query, columns and order and without count. -/
def sampleListCtx : Context :=
  { uid := "alice", roles := ["editor"], tlps := [], params := [], query := [] }

/-! ## The statements a request must compile and run -/

/-- The expression with which a request must reach `expr.Where()`, in the words
of the specification: the parsed query `e` itself when the permitted set is
empty, and `e` ANDed with the parsed conditions of the permitted set, as the
outer AND operand, when it is not. -/
def Composed {Expr : Type} (db : Database Expr) (m : Models) (ctx : Context) (e X : Expr) :
    Prop :=
  (ctx.tlps = [] ∧ X = e) ∨
  (ctx.tlps ≠ [] ∧ ∃ t, db.Parse (m.AsConditions ctx.tlps) = .ok t ∧ X = db.And e t)

/-- The columns a list request asks for. -/
def requestedColumns (ctx : Context) : List String :=
  Fields (ctx.DefaultQuery "columns" "id title tracking_id version publisher")

/-- The order fields a list request asks for. -/
def requestedOrder (ctx : Context) : List String :=
  Fields (ctx.DefaultQuery "order" "publisher tracking_id -version")

/-- The list request passes every check made before the store is reached: the
projections and the order resolve against the aliases of `X`, giving `order`,
and `limit` and `offset` are absent (then `-1`) or parse. -/
def ChecksPass {Expr : Type} (db : Database Expr) (ctx : Context) (X : Expr) (order : String)
    (limit offset : Int) : Prop :=
  db.CheckProjections (requestedColumns ctx) (db.Where X).2.2 = none ∧
  db.CreateOrder (requestedOrder ctx) (db.Where X).2.2 = .ok order ∧
  (if ctx.Query "limit" ≠ "" then ParseInt (ctx.Query "limit") else .ok (-1)) = .ok limit ∧
  (if ctx.Query "offset" ≠ "" then ParseInt (ctx.Query "offset") else .ok (-1)) = .ok offset

/-- The export statement compiled from `X.Where()`. -/
def exportSQL {Expr : Type} (db : Database Expr) (X : Expr) : String :=
  db.CreateQuerySQL ["original"] (db.Where X).2.2 (db.Where X).1 "" (-1) (-1)

/-- The count statement compiled from `X.Where()`. -/
def countSQL {Expr : Type} (db : Database Expr) (X : Expr) : String :=
  db.CreateCountSQL (db.Where X).1 (decide ((db.Where X).2.2.length > 0))

/-- The list statement compiled from `X.Where()` for the requested columns. -/
def listSQL {Expr : Type} (db : Database Expr) (ctx : Context) (X : Expr) (order : String)
    (limit offset : Int) : String :=
  db.CreateQuerySQL (requestedColumns ctx) (db.Where X).2.2 (db.Where X).1 order limit offset

/-- The store operations a list request that reaches the store with `X` must
run on a store that provides a connection: with a `count` parameter the count
statement of `X` is built and run with the replacements of `X`; then, unless
the count failed or no column is requested, the list statement of `X` is built
and run with the replacements of `X`. -/
def listEvents {Expr : Type} (db : Database Expr) (conn : Conn) (ctx : Context) (X : Expr)
    (order : String) (limit offset : Int) : List Event :=
  let rowEvents : List Event :=
    if requestedColumns ctx = [] then []
    else
      [.createQuerySQL (listSQL db ctx X order limit offset),
       .query (listSQL db ctx X order limit offset) (db.Where X).2.1]
  if ctx.Query "count" ≠ "" then
    [.acquire, .createCountSQL (countSQL db X), .queryRow (countSQL db X) (db.Where X).2.1] ++
      (match conn.QueryRowScanInt64 (countSQL db X) (db.Where X).2.1 with
        | .error _ => []
        | .ok _ => rowEvents)
  else .acquire :: rowEvents

/-- The body of a 500 response that carries an error value: the object with the
marshalled value under `error`, or no body when it cannot be marshalled. -/
def errorValueBody (err : GoError) : Body :=
  match err.marshalled with
  | some fields => .json [("error", .err fields)]
  | none => .empty

/-! ## The data store behind an export -/

/-- Modelled from the spec: the execution of a compiled statement by the data
store is not part of the embedded files. A store holding `docs` answers the
single-row statement compiled from `expr` with the first document that `expr`
selects, or with `pgx.ErrNoRows` when it selects none. -/
def firstOriginal (selects : Document → Bool) (docs : List Document) :
    Except GoError (List UInt8) :=
  match docs.find? selects with
  | some d => .ok d.original
  | none => .error ErrNoRows

/-- Modelled from the spec: the store `conn` holds the documents `docs` and
executes the export statement compiled from `expr` as the filter `selects`
says. -/
def ExecutesExport {Expr : Type} (db : Database Expr) (conn : Conn) (docs : List Document)
    (expr : Expr) (selects : Document → Bool) : Prop :=
  conn.acquire = none ∧
  conn.QueryRowScanBytes
      (db.CreateQuerySQL ["original"] (db.Where expr).2.2 (db.Where expr).1 "" (-1) (-1))
      (db.Where expr).2.1 = firstOriginal selects docs

/-! ## The transition orchestrator as the specification words it -/

/-- The failure categories of the transition orchestrator. -/
inductive Failure where
  | ValidationError
  | NotFoundError
  | AccessDeniedError
  | TransitionNotAllowedError
deriving DecidableEq, Repr

/-- Steps 1 to 5 of the orchestrator for one item on a store, in the words of
the specification: blank publisher or tracking id, advisory absent,
classification outside a non-empty permitted set, no edge, none of the roles of
the edge held. `none` means the item passes every check. -/
def checkItem (m : Models) (ctx : Context) (s : Store) (x : advisoryState) : Option Failure :=
  if x.Publisher = "" ∨ x.TrackingID = "" then some .ValidationError
  else
    match (findAdvisoryRows s x.Publisher x.TrackingID).head? with
    | none => some .NotFoundError
    | some (_, current, tlp) =>
      if ctx.tlps ≠ [] ∧ m.Allowed ctx.tlps x.Publisher tlp = false then
        some .AccessDeniedError
      else if m.TransitionsRoles current x.State = [] then
        some .TransitionNotAllowedError
      else if ¬ ∃ r ∈ m.TransitionsRoles current x.State, r ∈ ctx.roles then
        some .AccessDeniedError
      else none

/-- Step 6 of the orchestrator for one item: the advisory gets the target
state and one audit entry is appended, whose actor is absent exactly when
anonymous event logging is configured. -/
def applyItem (c : Controller) (ctx : Context) (s : Store) (x : advisoryState) : Store :=
  match (findAdvisoryRows s x.Publisher x.TrackingID).head? with
  | none => s
  | some (documentID, _, _) =>
    { advisories := s.advisories.map fun a =>
        if a.tracking_id = x.TrackingID ∧ a.publisher = x.Publisher then
          { a with state := x.State }
        else a
      documents := s.documents
      events_log := s.events_log ++
        [{ event := "state_change", state := x.State,
           actor := if c.AnonymousEventLogging then none else some ctx.uid,
           documents_id := documentID }] }

/-- Step 6 for every item of a batch, in batch order. -/
def applyAll (c : Controller) (ctx : Context) (s : Store) (xs : advisoryStates) : Store :=
  xs.foldl (applyItem c ctx) s

/-- Every item of the batch passes every check, each on the store left by the
items before it. -/
def passAll (m : Models) (c : Controller) (ctx : Context) : Store → advisoryStates → Bool
  | _, [] => true
  | s, x :: xs => checkItem m ctx s x = none && passAll m c ctx (applyItem c ctx s x) xs

/-- The response the interface table gives for a failure category. -/
def failureResponse : Failure → Response
  | .ValidationError => JSON 400 [("error", .str "bad input")]
  | .NotFoundError => JSON 404 [("error", .str "advisory not found")]
  | .AccessDeniedError => JSON 403 [("error", .str "access denied")]
  | .TransitionNotAllowedError => JSON 400 [("error", .str "state transition not possible")]

/-- No store operation fails. -/
def NoFault (faults : List (Option GoError)) : Prop := ∀ f ∈ faults, f = none

instance (faults : List (Option GoError)) : Decidable (NoFault faults) := by
  unfold NoFault; infer_instance

/-- The loop result a failure category stands for. -/
def failureResult (f : Failure) (tx : Tx) : LoopResult :=
  match f with
  | .ValidationError => .returnNil { bad := true } tx
  | .NotFoundError => .returnErr ErrNoRows tx
  | .AccessDeniedError => .returnNil { forbidden := true } tx
  | .TransitionNotAllowedError => .returnNil { noTransition := true } tx

/-- The transaction state a loop result carries. -/
def LoopResult.tx : LoopResult → Tx
  | .next tx => tx
  | .returnNil _ tx => tx
  | .returnErr _ tx => tx

/-- A loop result that returns `nil` early has one of the flags set. -/
def LoopResult.flagged : LoopResult → Prop
  | .returnNil fl _ => (fl.bad || fl.forbidden || fl.noTransition) = true
  | _ => True

/-- The effect of statement `updateState` for a request item on the rows of
table `advisories`. -/
def setState (advs : List Advisory) (x : advisoryState) : List Advisory :=
  (updateState ⟨advs, [], []⟩ x.State x.TrackingID x.Publisher).advisories

/-- The rows of table `advisories` after the state updates of the given request
items have run in order. -/
def replay (advs : List Advisory) (xs : advisoryStates) : List Advisory :=
  xs.foldl setState advs

/-- The invariant of a running transaction, relative to the store `s0` it was
begun on: its working copy holds the advisories of `s0` with exactly the
executed state updates replayed, and each executed update was run on the
working copy left by the updates before it, for an item that passed every check
on that working copy. -/
structure Inv (m : Models) (ctx : Context) (s0 : Store) (tx : Tx) : Prop where
  replayed : tx.store.advisories = replay s0.advisories (tx.applied.map Prod.snd)
  snapshot : ∀ pre p post, tx.applied = pre ++ p :: post →
    p.1.advisories = replay s0.advisories (pre.map Prod.snd) ∧ checkItem m ctx p.1 p.2 = none

/-- The store operations of one passing item, in the words of the
specification: the lookup of the advisory, the state update, and the insert of
the audit entry with the actor (absent under anonymous event logging) and the id
of the looked-up document. -/
def itemEvents (c : Controller) (ctx : Context) (s : Store) (x : advisoryState) : List Event :=
  [.queryRow findAdvisorySQL [.str x.Publisher, .str x.TrackingID],
   .exec updateStateSQL [.str x.State, .str x.TrackingID, .str x.Publisher],
   .exec insertLogSQL
     [.str x.State,
      if c.AnonymousEventLogging then .null else .str ctx.uid,
      .int (match (findAdvisoryRows s x.Publisher x.TrackingID).head? with
        | some (documentID, _, _) => documentID
        | none => 0)]]

/-- The store operations of the items of a passing batch, in batch order, each
item on the store left by the items before it. -/
def eventsAll (c : Controller) (ctx : Context) : Store → advisoryStates → List Event
  | _, [] => []
  | s, x :: xs => itemEvents c ctx s x ++ eventsAll c ctx (applyItem c ctx s x) xs

/-- The primary key of table `advisories`. -/
def advisoryKey (a : Advisory) : String × String := (a.tracking_id, a.publisher)

end ISDuBA

namespace ISDuBA

/-! ## Lemmas on the loop of `changeStatusAll` -/

theorem op_of_noFault (tx : Tx) (ev : Event) (h : NoFault tx.faults) :
    ∃ tx1, tx.op ev = (none, tx1) ∧ NoFault tx1.faults ∧ tx1.store = tx.store ∧
      tx1.applied = tx.applied ∧ tx1.trace = tx.trace ++ [ev] := by
  obtain ⟨store, faults, trace, applied⟩ := tx
  cases faults with
  | nil => exact ⟨_, rfl, h, rfl, rfl, rfl⟩
  | cons f fs =>
    have hf : f = none := h f (by simp)
    subst hf
    exact ⟨_, rfl, fun g hg => h g (by simp [hg]), rfl, rfl, rfl⟩

theorem op_store (tx : Tx) (ev : Event) : (tx.op ev).2.store = tx.store := by
  unfold Tx.op; split <;> rfl

theorem op_applied (tx : Tx) (ev : Event) : (tx.op ev).2.applied = tx.applied := by
  unfold Tx.op; split <;> rfl

theorem op_trace (tx : Tx) (ev : Event) : (tx.op ev).2.trace = tx.trace ++ [ev] := by
  unfold Tx.op; split <;> rfl

theorem loop_append (m : Models) (c : Controller) (ctx : Context) (pre rest : advisoryStates) :
    ∀ tx, loop m c ctx tx (pre ++ rest) =
      match loop m c ctx tx pre with
      | .next tx1 => loop m c ctx tx1 rest
      | r => r := by
  induction pre with
  | nil => intro tx; simp [loop]
  | cons x xs ih =>
    intro tx
    simp only [List.cons_append, loop]
    cases hb : loopBody m c ctx tx x with
    | next tx1 => exact ih tx1
    | returnNil fl tx1 => rfl
    | returnErr e tx1 => rfl

theorem hasAnyRole_iff (ctx : Context) (roles : List String) :
    hasAnyRole ctx roles = true ↔ ∃ r ∈ roles, r ∈ ctx.roles := by
  simp [hasAnyRole, List.any_eq_true]

/-- Without faults the loop body does what the checks of the specification say. -/
theorem loopBody_of_noFault (m : Models) (c : Controller) (ctx : Context) (tx : Tx)
    (x : advisoryState) (h : NoFault tx.faults) :
    (∀ f, checkItem m ctx tx.store x = some f →
      ∃ tx1, loopBody m c ctx tx x = failureResult f tx1 ∧ tx1.store = tx.store ∧
        (f = .ValidationError → tx1 = tx)) ∧
    (checkItem m ctx tx.store x = none →
      ∃ tx1, loopBody m c ctx tx x = .next tx1 ∧ tx1.store = applyItem c ctx tx.store x ∧
        NoFault tx1.faults ∧ tx1.trace = tx.trace ++ itemEvents c ctx tx.store x) := by
  unfold checkItem loopBody
  by_cases hb : x.Publisher = "" ∨ x.TrackingID = ""
  · simp only [hb, if_true]
    refine ⟨fun f hf => ⟨tx, ?_, rfl, fun _ => rfl⟩, fun hf => by simp at hf⟩
    cases hf; rfl
  · simp only [hb, if_false]
    obtain ⟨tx1, hop1, hnf1, hst1, -, htr1⟩ :=
      op_of_noFault tx (.queryRow findAdvisorySQL [.str x.Publisher, .str x.TrackingID]) h
    rw [hop1]
    simp only [findAdvisory, hst1]
    cases hrow : (findAdvisoryRows tx.store x.Publisher x.TrackingID).head? with
    | none =>
      simp only []
      refine ⟨fun f hf => ⟨tx1, ?_, hst1, ?_⟩, fun hf => by simp at hf⟩
      · cases hf; rfl
      · intro hv; cases hf; cases hv
    | some row =>
      obtain ⟨documentID, current, tlp⟩ := row
      simp only []
      by_cases hscope : ctx.tlps ≠ [] ∧ m.Allowed ctx.tlps x.Publisher tlp = false
      · have hscope2 : ctx.tlps.length > 0 ∧ (!m.Allowed ctx.tlps x.Publisher tlp) = true :=
          ⟨List.length_pos.mpr hscope.1, by simp [hscope.2]⟩
        rw [if_pos hscope, if_pos hscope2]
        refine ⟨fun f hf => ⟨tx1, ?_, hst1, ?_⟩, fun hf => by simp at hf⟩
        · cases hf; rfl
        · intro hv; cases hf; cases hv
      · have hscope2 : ¬ (ctx.tlps.length > 0 ∧ (!m.Allowed ctx.tlps x.Publisher tlp) = true) := by
          intro hh
          exact hscope ⟨List.length_pos.mp hh.1, by simpa using hh.2⟩
        rw [if_neg hscope, if_neg hscope2]
        by_cases hroles : m.TransitionsRoles current x.State = []
        · have hroles2 : (m.TransitionsRoles current x.State).length = 0 := by simp [hroles]
          rw [if_pos hroles, if_pos hroles2]
          refine ⟨fun f hf => ⟨tx1, ?_, hst1, ?_⟩, fun hf => by simp at hf⟩
          · cases hf; rfl
          · intro hv; cases hf; cases hv
        · have hroles2 : ¬ (m.TransitionsRoles current x.State).length = 0 := by
            simpa using hroles
          rw [if_neg hroles, if_neg hroles2]
          by_cases hheld : ¬ ∃ r ∈ m.TransitionsRoles current x.State, r ∈ ctx.roles
          · have hheld2 : (!hasAnyRole ctx (m.TransitionsRoles current x.State)) = true := by
              rw [Bool.not_eq_true', ← Bool.not_eq_true, hasAnyRole_iff]
              exact hheld
            rw [if_pos hheld, if_pos hheld2]
            refine ⟨fun f hf => ⟨tx1, ?_, hst1, ?_⟩, fun hf => by simp at hf⟩
            · cases hf; rfl
            · intro hv; cases hf; cases hv
          · have hheld2 : ¬ (!hasAnyRole ctx (m.TransitionsRoles current x.State)) = true := by
              rw [Bool.not_eq_true', ← Bool.not_eq_true, hasAnyRole_iff]
              exact hheld
            rw [if_neg hheld, if_neg hheld2]
            refine ⟨fun f hf => by simp at hf, fun _ => ?_⟩
            obtain ⟨tx2, hop2, hnf2, hst2, -, htr2⟩ := op_of_noFault tx1
              (.exec updateStateSQL [.str x.State, .str x.TrackingID, .str x.Publisher]) hnf1
            rw [hop2]
            simp only []
            obtain ⟨tx3, hop3, hnf3, hst3, -, htr3⟩ := op_of_noFault
              { tx2 with
                applied := tx2.applied ++ [(tx2.store, x)]
                store := updateState tx2.store x.State x.TrackingID x.Publisher }
              (.exec insertLogSQL [.str x.State, stringPtrArg (actor c ctx), .int documentID]) hnf2
            rw [hop3]
            simp only []
            refine ⟨_, rfl, ?_, hnf3, ?_⟩
            · simp only [hst3, hst2, hst1, applyItem, hrow, insertLog, updateState, actor]
              cases c.AnonymousEventLogging <;> rfl
            · simp only [] at htr3
              simp only [htr3, htr2, htr1, itemEvents, hrow, actor, List.append_assoc]
              cases c.AnonymousEventLogging <;> rfl

theorem op_eq (tx tx1 : Tx) (ev : Event) (f : Option GoError) (h : tx.op ev = (f, tx1)) :
    tx1.store = tx.store ∧ tx1.applied = tx.applied ∧ tx1.trace = tx.trace ++ [ev] := by
  have h1 := op_store tx ev
  have h2 := op_applied tx ev
  have h3 := op_trace tx ev
  rw [h] at h1 h2 h3
  exact ⟨h1, h2, h3⟩

/-- Whatever faults are injected, one pass of the loop body either leaves the
working copy alone and does not fall through, or has found the item to pass
every check and has run its state update. -/
theorem loopBody_cases (m : Models) (c : Controller) (ctx : Context) (tx : Tx)
    (x : advisoryState) :
    (loopBody m c ctx tx x).flagged ∧
    (∃ T, (loopBody m c ctx tx x).tx.trace = tx.trace ++ T) ∧
    (((∀ tx1, loopBody m c ctx tx x ≠ .next tx1) ∧
      (loopBody m c ctx tx x).tx.applied = tx.applied ∧
      (loopBody m c ctx tx x).tx.store = tx.store) ∨
    ((∀ tx1, loopBody m c ctx tx x ≠ .next tx1) ∧
      checkItem m ctx tx.store x = none ∧
      (loopBody m c ctx tx x).tx.applied = tx.applied ++ [(tx.store, x)] ∧
      (loopBody m c ctx tx x).tx.store =
        updateState tx.store x.State x.TrackingID x.Publisher) ∨
    (loopBody m c ctx tx x = .next (loopBody m c ctx tx x).tx ∧
      checkItem m ctx tx.store x = none ∧
      (loopBody m c ctx tx x).tx.applied = tx.applied ++ [(tx.store, x)] ∧
      (loopBody m c ctx tx x).tx.store = applyItem c ctx tx.store x)) := by
  unfold checkItem loopBody
  by_cases hb : x.Publisher = "" ∨ x.TrackingID = ""
  · rw [if_pos hb]
    exact ⟨by trivial, ⟨[], (List.append_nil _).symm⟩, Or.inl ⟨(fun _ h => by cases h), rfl, rfl⟩⟩
  · rw [if_neg hb, if_neg hb]
    cases hop1 : tx.op (.queryRow findAdvisorySQL [.str x.Publisher, .str x.TrackingID]) with
    | mk f1 tx1 =>
    obtain ⟨hst1, hap1, htr1⟩ := op_eq _ _ _ _ hop1
    cases f1 with
    | some e => exact ⟨by trivial, ⟨_, htr1⟩, Or.inl ⟨(fun _ h => by cases h), hap1, hst1⟩⟩
    | none =>
      simp only [findAdvisory, hst1]
      cases hrow : (findAdvisoryRows tx.store x.Publisher x.TrackingID).head? with
      | none => exact ⟨by trivial, ⟨_, htr1⟩, Or.inl ⟨(fun _ h => by cases h), hap1, hst1⟩⟩
      | some row =>
        obtain ⟨documentID, current, tlp⟩ := row
        simp only []
        by_cases hscope : ctx.tlps ≠ [] ∧ m.Allowed ctx.tlps x.Publisher tlp = false
        · have hscope2 : ctx.tlps.length > 0 ∧ (!m.Allowed ctx.tlps x.Publisher tlp) = true :=
            ⟨List.length_pos.mpr hscope.1, by simp [hscope.2]⟩
          rw [if_pos hscope2]
          exact ⟨by trivial, ⟨_, htr1⟩, Or.inl ⟨(fun _ h => by cases h), hap1, hst1⟩⟩
        · have hscope2 : ¬ (ctx.tlps.length > 0 ∧ (!m.Allowed ctx.tlps x.Publisher tlp) = true) := by
            intro hh
            exact hscope ⟨List.length_pos.mp hh.1, by simpa using hh.2⟩
          rw [if_neg hscope, if_neg hscope2]
          by_cases hroles : m.TransitionsRoles current x.State = []
          · have hroles2 : (m.TransitionsRoles current x.State).length = 0 := by simp [hroles]
            rw [if_pos hroles2]
            exact ⟨by trivial, ⟨_, htr1⟩, Or.inl ⟨(fun _ h => by cases h), hap1, hst1⟩⟩
          · have hroles2 : ¬ (m.TransitionsRoles current x.State).length = 0 := by
              simpa using hroles
            rw [if_neg hroles, if_neg hroles2]
            by_cases hheld : ¬ ∃ r ∈ m.TransitionsRoles current x.State, r ∈ ctx.roles
            · have hheld2 : (!hasAnyRole ctx (m.TransitionsRoles current x.State)) = true := by
                rw [Bool.not_eq_true', ← Bool.not_eq_true, hasAnyRole_iff]
                exact hheld
              rw [if_pos hheld2]
              exact ⟨by trivial, ⟨_, htr1⟩, Or.inl ⟨(fun _ h => by cases h), hap1, hst1⟩⟩
            · have hheld2 : ¬ (!hasAnyRole ctx (m.TransitionsRoles current x.State)) = true := by
                rw [Bool.not_eq_true', ← Bool.not_eq_true, hasAnyRole_iff]
                exact hheld
              rw [if_neg hheld, if_neg hheld2]
              cases hop2 : tx1.op
                (.exec updateStateSQL [.str x.State, .str x.TrackingID, .str x.Publisher]) with
              | mk f2 tx2 =>
              obtain ⟨hst2, hap2, htr2⟩ := op_eq _ _ _ _ hop2
              rw [htr1, List.append_assoc] at htr2
              cases f2 with
              | some e => exact ⟨by trivial, ⟨_, htr2⟩, Or.inl ⟨(fun _ h => by cases h), hap2.trans hap1, hst2.trans hst1⟩⟩
              | none =>
                simp only []
                cases hop3 : Tx.op { tx2 with
                    applied := tx2.applied ++ [(tx2.store, x)]
                    store := updateState tx2.store x.State x.TrackingID x.Publisher }
                  (.exec insertLogSQL [.str x.State, stringPtrArg (actor c ctx), .int documentID]) with
                | mk f3 tx3 =>
                obtain ⟨hst3, hap3, htr3⟩ := op_eq _ _ _ _ hop3
                simp only [] at hst3 hap3 htr3
                rw [htr2, List.append_assoc] at htr3
                rw [hst2, hst1] at hst3
                rw [hst2, hst1, hap2, hap1] at hap3
                cases f3 with
                | some e => exact ⟨by trivial, ⟨_, htr3⟩, Or.inr (Or.inl ⟨(fun _ h => by cases h), trivial, hap3, hst3⟩)⟩
                | none =>
                  refine ⟨by trivial, ⟨_, htr3⟩, Or.inr (Or.inr ⟨rfl, trivial, hap3, ?_⟩)⟩
                  simp only [LoopResult.tx, hst3, applyItem, hrow, insertLog, updateState, actor]
                  cases c.AnonymousEventLogging <;> rfl

theorem loop_cons (m : Models) (c : Controller) (ctx : Context) (tx : Tx) (x : advisoryState)
    (xs : advisoryStates) :
    loop m c ctx tx (x :: xs) =
      match loopBody m c ctx tx x with
      | .next tx1 => loop m c ctx tx1 xs
      | r => r := rfl

/-- The loop falls through only when every item passes every check, and then
its working copy is the store with every item applied. -/
theorem loop_next (m : Models) (c : Controller) (ctx : Context) :
    ∀ (xs : advisoryStates) (tx tx1 : Tx), loop m c ctx tx xs = .next tx1 →
      passAll m c ctx tx.store xs = true ∧ tx1.store = applyAll c ctx tx.store xs := by
  intro xs
  induction xs with
  | nil =>
    intro tx tx1 h
    simp only [loop] at h
    cases h
    exact ⟨rfl, rfl⟩
  | cons x xs ih =>
    intro tx tx1 h
    rw [loop_cons] at h
    have hc := (loopBody_cases m c ctx tx x).2.2
    cases hb : loopBody m c ctx tx x with
    | returnNil fl t => rw [hb] at h; cases h
    | returnErr e t => rw [hb] at h; cases h
    | next t =>
      rw [hb] at h hc
      simp only [] at h
      rcases hc with ⟨hn, -⟩ | ⟨hn, -⟩ | ⟨-, hchk, -, hst⟩
      · exact absurd rfl (hn t)
      · exact absurd rfl (hn t)
      · simp only [LoopResult.tx] at hst
        obtain ⟨h1, h2⟩ := ih t tx1 h
        rw [hst] at h1 h2
        refine ⟨?_, ?_⟩
        · simp only [passAll, hchk, h1, decide_True, Bool.and_self]
        · simpa only [applyAll, List.foldl_cons] using h2

/-- Without faults a batch whose items all pass falls through the loop. -/
theorem loop_of_noFault (m : Models) (c : Controller) (ctx : Context) :
    ∀ (xs : advisoryStates) (tx : Tx), NoFault tx.faults →
      passAll m c ctx tx.store xs = true →
      ∃ tx1, loop m c ctx tx xs = .next tx1 ∧ tx1.store = applyAll c ctx tx.store xs ∧
        NoFault tx1.faults ∧ tx1.trace = tx.trace ++ eventsAll c ctx tx.store xs := by
  intro xs
  induction xs with
  | nil => intro tx hnf _; exact ⟨tx, rfl, rfl, hnf, by simp [eventsAll]⟩
  | cons x xs ih =>
    intro tx hnf hp
    simp only [passAll, Bool.and_eq_true, decide_eq_true_eq] at hp
    obtain ⟨t, hb, hst, hnf1, htr⟩ := (loopBody_of_noFault m c ctx tx x hnf).2 hp.1
    have hp2 := hp.2
    rw [← hst] at hp2
    obtain ⟨tx1, hl, hst1, hnf2, htr1⟩ := ih t hnf1 hp2
    refine ⟨tx1, ?_, ?_, hnf2, ?_⟩
    · rw [loop_cons, hb]; exact hl
    · rw [hst1, hst]; rfl
    · rw [htr1, htr, hst, List.append_assoc]; rfl

/-- When the loop body returns `nil` early it has set one of the flags. -/
theorem loopBody_flags (m : Models) (c : Controller) (ctx : Context) (tx tx1 : Tx)
    (x : advisoryState) (fl : Flags) (h : loopBody m c ctx tx x = .returnNil fl tx1) :
    (fl.bad || fl.forbidden || fl.noTransition) = true := by
  have hf := (loopBody_cases m c ctx tx x).1
  rw [h] at hf
  exact hf

theorem loop_flags (m : Models) (c : Controller) (ctx : Context) :
    ∀ (xs : advisoryStates) (tx tx1 : Tx) (fl : Flags),
      loop m c ctx tx xs = .returnNil fl tx1 →
      (fl.bad || fl.forbidden || fl.noTransition) = true := by
  intro xs
  induction xs with
  | nil => intro tx tx1 fl h; cases h
  | cons x xs ih =>
    intro tx tx1 fl h
    rw [loop_cons] at h
    cases hb : loopBody m c ctx tx x with
    | next t => rw [hb] at h; exact ih t tx1 fl h
    | returnNil fl2 t =>
      rw [hb] at h
      cases h
      exact loopBody_flags m c ctx tx tx1 x fl hb
    | returnErr e t => rw [hb] at h; cases h

/-- The two ways a call of `changeStatusAll` ends: with a response other than
200 and the store as it was, or with every item passing every check, the
response 200 "transition done" and every item applied. -/
theorem changeStatusAll_cases (m : Models) (c : Controller) (ctx : Context) (s : Store)
    (faults : List (Option GoError)) (inputs : advisoryStates) :
    ((changeStatusAll m c ctx s faults inputs).response.status ≠ StatusOK ∧
      (changeStatusAll m c ctx s faults inputs).store = s) ∨
    (passAll m c ctx s inputs = true ∧
      (changeStatusAll m c ctx s faults inputs).response =
        JSON StatusOK [("message", .str "transition done")] ∧
      (changeStatusAll m c ctx s faults inputs).store = applyAll c ctx s inputs) := by
  unfold changeStatusAll Run
  cases hop0 : (Tx.mk s faults [] []).op .acquire with
  | mk f0 tx0 =>
  obtain ⟨hst0, -, -⟩ := op_eq _ _ _ _ hop0
  cases f0 with
  | some e =>
    refine Or.inl ⟨?_, rfl⟩
    cases hn : e.noRows <;>
      simp [respond, hn, JSON, StatusOK, StatusNotFound, StatusInternalServerError]
  | none =>
    simp only [callback]
    cases hop1 : tx0.op .beginTx with
    | mk f1 tx1 =>
    obtain ⟨hst1, -, -⟩ := op_eq _ _ _ _ hop1
    cases f1 with
    | some e =>
      refine Or.inl ⟨?_, rfl⟩
      cases hn : e.noRows <;>
        simp [respond, hn, JSON, StatusOK, StatusNotFound, StatusInternalServerError]
    | none =>
      simp only []
      cases hl : loop m c ctx tx1 inputs with
      | returnErr e t =>
        refine Or.inl ⟨?_, rfl⟩
        cases hn : e.noRows <;>
          simp [respond, hn, JSON, StatusOK, StatusNotFound, StatusInternalServerError]
      | returnNil fl t =>
        refine Or.inl ⟨?_, rfl⟩
        have hfl := loop_flags m c ctx inputs tx1 t fl hl
        obtain ⟨f1, f2, f3⟩ := fl
        cases f3 <;> cases f1 <;> cases f2 <;>
          first
          | (simp at hfl; done)
          | simp [respond, JSON, StatusOK, StatusBadRequest, StatusForbidden]
      | next t =>
        obtain ⟨hpass, hst⟩ := loop_next m c ctx inputs tx1 t hl
        simp only [hst1, hst0] at hpass hst
        simp only []
        cases hop2 : t.op .commit with
        | mk f2 tx2 =>
        obtain ⟨hst2, -, -⟩ := op_eq _ _ _ _ hop2
        cases f2 with
        | some e =>
          refine Or.inl ⟨?_, rfl⟩
          cases hn : e.noRows <;>
            simp [respond, hn, JSON, StatusOK, StatusNotFound, StatusInternalServerError]
        | none => exact Or.inr ⟨hpass, rfl, hst2.trans hst⟩

/-- A row of statement `findAdvisory` comes from an advisory and a document of
the store with the requested publisher and tracking id. -/
theorem findAdvisoryRows_head (s : Store) (publisher trackingID : String) (documentID : Int)
    (current tlp : String)
    (h : (findAdvisoryRows s publisher trackingID).head? = some (documentID, current, tlp)) :
    ∃ a ∈ s.advisories, ∃ d ∈ s.documents,
      a.tracking_id = trackingID ∧ a.publisher = publisher ∧ a.state = current ∧
      d.tracking_id = trackingID ∧ d.publisher = publisher ∧ d.id = documentID ∧
      d.tlp = tlp := by
  have hmem := List.mem_of_mem_head? (Option.mem_def.mpr h)
  simp only [findAdvisoryRows, List.mem_flatMap, List.mem_filterMap] at hmem
  obtain ⟨a, ha, d, hd, hrow⟩ := hmem
  split at hrow
  · rename_i hcond
    obtain ⟨h1, h2, h3, h4⟩ := hcond
    simp only [Option.some.injEq, Prod.mk.injEq] at hrow
    obtain ⟨h5, h6, h7⟩ := hrow
    exact ⟨a, ha, d, hd, h1.trans h4, h2.trans h3, h6, h4, h3, h5, h7⟩
  · cases hrow

/-- An item that passes every check is not blank, is found, is in scope, and
asks for an edge of the table one of whose roles the caller holds. -/
theorem checkItem_none (m : Models) (ctx : Context) (s : Store) (x : advisoryState)
    (h : checkItem m ctx s x = none) :
    x.Publisher ≠ "" ∧ x.TrackingID ≠ "" ∧
    ∃ documentID current tlp,
      (findAdvisoryRows s x.Publisher x.TrackingID).head? = some (documentID, current, tlp) ∧
      (ctx.tlps = [] ∨ m.Allowed ctx.tlps x.Publisher tlp = true) ∧
      m.TransitionsRoles current x.State ≠ [] ∧
      ∃ r ∈ m.TransitionsRoles current x.State, r ∈ ctx.roles := by
  unfold checkItem at h
  by_cases hb : x.Publisher = "" ∨ x.TrackingID = ""
  · rw [if_pos hb] at h; cases h
  · rw [if_neg hb] at h
    cases hrow : (findAdvisoryRows s x.Publisher x.TrackingID).head? with
    | none => rw [hrow] at h; cases h
    | some row =>
      obtain ⟨documentID, current, tlp⟩ := row
      rw [hrow] at h
      simp only [] at h
      by_cases hscope : ctx.tlps ≠ [] ∧ m.Allowed ctx.tlps x.Publisher tlp = false
      · rw [if_pos hscope] at h; cases h
      · rw [if_neg hscope] at h
        by_cases hroles : m.TransitionsRoles current x.State = []
        · rw [if_pos hroles] at h; cases h
        · rw [if_neg hroles] at h
          by_cases hheld : ¬ ∃ r ∈ m.TransitionsRoles current x.State, r ∈ ctx.roles
          · rw [if_pos hheld] at h; cases h
          · refine ⟨fun hp => hb (Or.inl hp), fun ht => hb (Or.inr ht),
              documentID, current, tlp, rfl, ?_, hroles, not_not.mp hheld⟩
            by_cases ht : ctx.tlps = []
            · exact Or.inl ht
            · right
              cases hal : m.Allowed ctx.tlps x.Publisher tlp with
              | true => rfl
              | false => exact absurd ⟨ht, hal⟩ hscope

theorem applyItem_documents (c : Controller) (ctx : Context) (s : Store) (x : advisoryState) :
    (applyItem c ctx s x).documents = s.documents := by
  unfold applyItem
  split <;> rfl

/-- The audit entries a passing batch appends: one per item, in batch order. -/
theorem applyAll_log (m : Models) (c : Controller) (ctx : Context) :
    ∀ (xs : advisoryStates) (s : Store), passAll m c ctx s xs = true →
      ∃ es, (applyAll c ctx s xs).events_log = s.events_log ++ es ∧
        List.Forall₂ (fun e x =>
          e.event = "state_change" ∧ e.state = x.State ∧
          e.actor = (if c.AnonymousEventLogging then none else some ctx.uid) ∧
          ∃ d ∈ s.documents, d.id = e.documents_id ∧ d.publisher = x.Publisher ∧
            d.tracking_id = x.TrackingID) es xs := by
  intro xs
  induction xs with
  | nil => intro s _; exact ⟨[], by simp [applyAll], List.Forall₂.nil⟩
  | cons x xs ih =>
    intro s hp
    simp only [passAll, Bool.and_eq_true, decide_eq_true_eq] at hp
    obtain ⟨-, -, documentID, current, tlp, hrow, -, -, -⟩ := checkItem_none m ctx s x hp.1
    obtain ⟨a, -, d, hd, -, -, -, hd1, hd2, hd3, -⟩ :=
      findAdvisoryRows_head s x.Publisher x.TrackingID documentID current tlp hrow
    obtain ⟨es, hes, hall⟩ := ih (applyItem c ctx s x) hp.2
    rw [applyItem_documents] at hall
    have hlog : (applyItem c ctx s x).events_log = s.events_log ++
        [⟨"state_change", x.State, if c.AnonymousEventLogging then none else some ctx.uid,
          documentID⟩] := by
      simp only [applyItem, hrow]
    refine ⟨⟨"state_change", x.State, if c.AnonymousEventLogging then none else some ctx.uid,
      documentID⟩ :: es, ?_, List.Forall₂.cons ⟨rfl, rfl, rfl, d, hd, hd3, hd2, hd1⟩ hall⟩
    simp only [applyAll, List.foldl_cons] at hes ⊢
    rw [hes, hlog, List.append_assoc]
    rfl

theorem Run_of_noFault (m : Models) (c : Controller) (ctx : Context) (s : Store)
    (faults : List (Option GoError)) (hnf : NoFault faults) :
    ∃ tx1, NoFault tx1.faults ∧ tx1.store = s ∧ tx1.trace = [.acquire, .beginTx] ∧
      ∀ inputs, Run m c ctx s faults inputs =
        match loop m c ctx tx1 inputs with
        | .returnNil flags tx => ⟨none, flags, s, tx.trace ++ [.rollback], tx.applied⟩
        | .returnErr err tx => ⟨some err, {}, s, tx.trace ++ [.rollback], tx.applied⟩
        | .next tx =>
          match tx.op .commit with
          | (some err, tx) => ⟨some err, {}, s, tx.trace, tx.applied⟩
          | (none, tx) => ⟨none, {}, tx.store, tx.trace, tx.applied⟩ := by
  obtain ⟨tx0, hop0, hnf0, hst0, -, htr0⟩ := op_of_noFault (Tx.mk s faults [] []) .acquire hnf
  obtain ⟨tx1, hop1, hnf1, hst1, -, htr1⟩ := op_of_noFault tx0 .beginTx hnf0
  refine ⟨tx1, hnf1, hst1.trans hst0, by rw [htr1, htr0]; rfl, fun inputs => ?_⟩
  unfold Run
  rw [hop0]
  simp only [callback]
  rw [hop1]

/-- Without faults, when the items before `x` pass and `x` fails a check, the
loop ends with the result of that failure, whatever follows `x`. -/
theorem loop_first_failure (m : Models) (c : Controller) (ctx : Context) (tx : Tx)
    (pre : advisoryStates) (x : advisoryState) (post : advisoryStates) (f : Failure)
    (hnf : NoFault tx.faults) (hpre : passAll m c ctx tx.store pre = true)
    (hx : checkItem m ctx (applyAll c ctx tx.store pre) x = some f) :
    ∃ t t1, loop m c ctx tx pre = .next t ∧ NoFault t.faults ∧
      loop m c ctx tx (pre ++ x :: post) = failureResult f t1 ∧
      (f = .ValidationError → t1 = t) ∧
      t.trace = tx.trace ++ eventsAll c ctx tx.store pre := by
  obtain ⟨t, hl, hst, hnft, htr⟩ := loop_of_noFault m c ctx pre tx hnf hpre
  rw [← hst] at hx
  obtain ⟨t1, hb, -, hv⟩ := (loopBody_of_noFault m c ctx t x hnft).1 f hx
  refine ⟨t, t1, hl, hnft, ?_, hv, htr⟩
  rw [loop_append, hl]
  simp only []
  rw [loop_cons, hb]
  cases f <;> rfl

theorem Inv.of_eq (m : Models) (ctx : Context) (s0 : Store) (tx t : Tx)
    (h : Inv m ctx s0 tx) (hst : t.store = tx.store) (hap : t.applied = tx.applied) :
    Inv m ctx s0 t :=
  ⟨by rw [hst, hap]; exact h.replayed, by rw [hap]; exact h.snapshot⟩

theorem Inv.step (m : Models) (ctx : Context) (s0 : Store) (tx t : Tx) (x : advisoryState)
    (h : Inv m ctx s0 tx) (hchk : checkItem m ctx tx.store x = none)
    (hst : t.store.advisories = setState tx.store.advisories x)
    (hap : t.applied = tx.applied ++ [(tx.store, x)]) :
    Inv m ctx s0 t := by
  constructor
  · rw [hst, hap, h.replayed]
    simp [replay]
  · intro pre p post heq
    rw [hap] at heq
    rcases List.eq_nil_or_concat post with hpost | ⟨post1, q, hpost⟩
    · subst hpost
      have hinj := @List.append_inj' _ tx.applied [(tx.store, x)] pre [p] heq rfl
      obtain ⟨h1, h2⟩ := hinj
      simp only [List.cons.injEq, and_true] at h2
      subst h2
      subst h1
      exact ⟨h.replayed, hchk⟩
    · subst hpost
      have heq2 : tx.applied ++ [(tx.store, x)] = (pre ++ p :: post1) ++ [q] := by
        rw [heq]; simp
      obtain ⟨h1, -⟩ := List.append_inj' heq2 rfl
      exact h.snapshot pre p post1 h1

theorem applyItem_advisories (m : Models) (c : Controller) (ctx : Context) (s : Store)
    (x : advisoryState) (h : checkItem m ctx s x = none) :
    (applyItem c ctx s x).advisories = setState s.advisories x := by
  obtain ⟨-, -, documentID, current, tlp, hrow, -⟩ := checkItem_none m ctx s x h
  simp only [applyItem, hrow]
  rfl

theorem loopBody_inv (m : Models) (c : Controller) (ctx : Context) (s0 : Store) (tx : Tx)
    (x : advisoryState) (h : Inv m ctx s0 tx) : Inv m ctx s0 (loopBody m c ctx tx x).tx := by
  rcases (loopBody_cases m c ctx tx x).2.2 with
    ⟨-, hap, hst⟩ | ⟨-, hchk, hap, hst⟩ | ⟨-, hchk, hap, hst⟩
  · exact h.of_eq m ctx s0 tx _ hst hap
  · exact h.step m ctx s0 tx _ x hchk (by rw [hst]; rfl) hap
  · exact h.step m ctx s0 tx _ x hchk
      (by rw [hst]; exact applyItem_advisories m c ctx tx.store x hchk) hap

theorem loop_inv (m : Models) (c : Controller) (ctx : Context) (s0 : Store) :
    ∀ (xs : advisoryStates) (tx : Tx), Inv m ctx s0 tx → Inv m ctx s0 (loop m c ctx tx xs).tx := by
  intro xs
  induction xs with
  | nil => intro tx h; exact h
  | cons x xs ih =>
    intro tx h
    have hb := loopBody_inv m c ctx s0 tx x h
    rw [loop_cons]
    cases hr : loopBody m c ctx tx x with
    | next t => rw [hr] at hb; exact ih t hb
    | returnNil fl t => rw [hr] at hb; exact hb
    | returnErr e t => rw [hr] at hb; exact hb

/-- The executed state updates a call reports satisfy the invariant, and the
committed store is the old store or the working copy of the transaction. -/
theorem Run_inv (m : Models) (c : Controller) (ctx : Context) (s : Store)
    (faults : List (Option GoError)) (inputs : advisoryStates) :
    ∃ tx, Inv m ctx s tx ∧ (Run m c ctx s faults inputs).applied = tx.applied ∧
      ((Run m c ctx s faults inputs).store = s ∨
        (Run m c ctx s faults inputs).store = tx.store) := by
  have h0 : Inv m ctx s (Tx.mk s faults [] []) :=
    ⟨rfl, fun pre p post h => by simp at h⟩
  unfold Run
  cases hop0 : (Tx.mk s faults [] []).op .acquire with
  | mk f0 tx0 =>
  obtain ⟨hst0, hap0, -⟩ := op_eq _ _ _ _ hop0
  have h1 := h0.of_eq m ctx s _ tx0 hst0 hap0
  cases f0 with
  | some e => exact ⟨tx0, h1, rfl, Or.inl rfl⟩
  | none =>
    simp only [callback]
    cases hop1 : tx0.op .beginTx with
    | mk f1 tx1 =>
    obtain ⟨hst1, hap1, -⟩ := op_eq _ _ _ _ hop1
    have h2 := h1.of_eq m ctx s _ tx1 hst1 hap1
    cases f1 with
    | some e => exact ⟨tx1, h2, rfl, Or.inl rfl⟩
    | none =>
      simp only []
      have h3 := loop_inv m c ctx s inputs tx1 h2
      cases hl : loop m c ctx tx1 inputs with
      | returnErr e t => rw [hl] at h3; exact ⟨t, h3, rfl, Or.inl rfl⟩
      | returnNil fl t => rw [hl] at h3; exact ⟨t, h3, rfl, Or.inl rfl⟩
      | next t =>
        rw [hl] at h3
        simp only [LoopResult.tx] at h3
        simp only []
        cases hop2 : t.op .commit with
        | mk f2 tx2 =>
        obtain ⟨hst2, hap2, -⟩ := op_eq _ _ _ _ hop2
        have h4 := h3.of_eq m ctx s _ tx2 hst2 hap2
        cases f2 with
        | some e => exact ⟨tx2, h4, rfl, Or.inl rfl⟩
        | none => exact ⟨tx2, h4, rfl, Or.inr rfl⟩

theorem setState_keys (advs : List Advisory) (x : advisoryState) :
    (setState advs x).map advisoryKey = advs.map advisoryKey := by
  simp only [setState, updateState, List.map_map]
  apply List.map_congr_left
  intro a _
  simp only [Function.comp, advisoryKey]
  split
  · rename_i h; simp [h.1, h.2]
  · rfl

theorem replay_keys (xs : advisoryStates) :
    ∀ advs : List Advisory, (replay advs xs).map advisoryKey = advs.map advisoryKey := by
  induction xs with
  | nil => intro advs; rfl
  | cons x xs ih =>
    intro advs
    simp only [replay, List.foldl_cons] at ih ⊢
    rw [ih, setState_keys]

/-- C1: batch atomicity of `changeStatusAll`. For every batch, store and fault
schedule, if some item of the batch fails a check (on the store left by the
items before it), or a store operation of the call fails, or the call ends with
any response other than 200, then the committed store (advisories and audit
log) is the store before the call and the response is not 200, however many
items were already updated inside the transaction. -/
theorem changeStatusAll_batch_atomic (m : Models) (c : Controller) (ctx : Context) (s : Store)
    (faults : List (Option GoError)) (inputs : advisoryStates)
    (h : passAll m c ctx s inputs = false ∨
      (Run m c ctx s faults inputs).err ≠ none ∨
      (changeStatusAll m c ctx s faults inputs).response.status ≠ StatusOK) :
    (changeStatusAll m c ctx s faults inputs).store = s ∧
    (changeStatusAll m c ctx s faults inputs).response.status ≠ StatusOK := by
  rcases changeStatusAll_cases m c ctx s faults inputs with ⟨h1, h2⟩ | ⟨h1, h2, -⟩
  · exact ⟨h2, h1⟩
  · rcases h with h | h | h
    · rw [h1] at h; cases h
    · exfalso
      cases herr : (Run m c ctx s faults inputs).err with
      | none => exact h herr
      | some e =>
        have hresp : (changeStatusAll m c ctx s faults inputs).response.status ≠ StatusOK := by
          simp only [changeStatusAll, respond, herr]
          cases hn : e.noRows <;>
            simp [JSON, StatusOK, StatusNotFound, StatusInternalServerError]
        exact hresp (by rw [h2]; rfl)
    · rw [h2] at h; exact absurd rfl h

/-- C4: success postcondition of `changeStatusAll`. When no store operation
fails and every item passes every check, the call answers 200 "transition
done", and the committed store is the initial store with every item applied in
batch order; its audit log is the old log followed by one entry per item, in
batch order, with event `state_change`, the target state of the item, an actor
that is absent when anonymous logging is configured and the uid of the caller
otherwise, and the id of a document with the publisher and tracking id of the
item. -/
theorem changeStatusAll_success (m : Models) (c : Controller) (ctx : Context) (s : Store)
    (faults : List (Option GoError)) (inputs : advisoryStates)
    (hnf : NoFault faults) (hpass : passAll m c ctx s inputs = true) :
    (changeStatusAll m c ctx s faults inputs).response =
      JSON StatusOK [("message", .str "transition done")] ∧
    (changeStatusAll m c ctx s faults inputs).store = applyAll c ctx s inputs ∧
    ∃ es, (changeStatusAll m c ctx s faults inputs).store.events_log = s.events_log ++ es ∧
      es.length = inputs.length ∧
      List.Forall₂ (fun e x =>
        e.event = "state_change" ∧ e.state = x.State ∧
        e.actor = (if c.AnonymousEventLogging then none else some ctx.uid) ∧
        ∃ d ∈ s.documents, d.id = e.documents_id ∧ d.publisher = x.Publisher ∧
          d.tracking_id = x.TrackingID) es inputs := by
  have hrun : (changeStatusAll m c ctx s faults inputs).response =
        JSON StatusOK [("message", .str "transition done")] ∧
      (changeStatusAll m c ctx s faults inputs).store = applyAll c ctx s inputs := by
    unfold changeStatusAll Run
    obtain ⟨tx0, hop0, hnf0, hst0, -, -⟩ := op_of_noFault (Tx.mk s faults [] []) .acquire hnf
    rw [hop0]
    simp only [callback]
    obtain ⟨tx1, hop1, hnf1, hst1, -, -⟩ := op_of_noFault tx0 .beginTx hnf0
    rw [hop1]
    simp only []
    have hpass1 : passAll m c ctx tx1.store inputs = true := by rw [hst1, hst0]; exact hpass
    obtain ⟨t, hl, hst, hnft, -⟩ := loop_of_noFault m c ctx inputs tx1 hnf1 hpass1
    rw [hl]
    simp only []
    obtain ⟨tx2, hop2, -, hst2, -, -⟩ := op_of_noFault t .commit hnft
    rw [hop2]
    refine ⟨rfl, ?_⟩
    simp only [hst2, hst, hst1, hst0]
  obtain ⟨es, hes, hall⟩ := applyAll_log m c ctx inputs s hpass
  exact ⟨hrun.1, hrun.2, es, by rw [hrun.2, hes], hall.length_eq, hall⟩

theorem changeStatusAll_batch_atomic_witness :
    passAll sampleModels sampleController sampleCtx sampleStore sampleFailing = false ∧
    (changeStatusAll sampleModels sampleController sampleCtx sampleStore []
      sampleFailing).applied.length = 1 ∧
    (changeStatusAll sampleModels sampleController sampleCtx sampleStore [] sampleFailing).store =
      sampleStore ∧
    (changeStatusAll sampleModels sampleController sampleCtx sampleStore []
      sampleFailing).response.status ≠ StatusOK :=
  ⟨by decide, by decide,
    changeStatusAll_batch_atomic sampleModels sampleController sampleCtx sampleStore []
      sampleFailing (Or.inl (by decide))⟩

/-- C3: failure category of a batch in `changeStatusAll`. When no store
operation fails, the items before `x` pass every check and `x` fails one (each
on the store left by the items before it), the response is the category of `x`,
whatever items follow it. An `x` that is not blank, is found and is in scope but
asks for a pair without an edge is answered 400 "state transition not possible",
whatever roles the caller holds. -/
theorem changeStatusAll_first_failure (m : Models) (c : Controller) (ctx : Context) (s : Store)
    (faults : List (Option GoError)) (pre : advisoryStates) (x : advisoryState)
    (post : advisoryStates) (f : Failure)
    (hnf : NoFault faults) (hpre : passAll m c ctx s pre = true)
    (hx : checkItem m ctx (applyAll c ctx s pre) x = some f) :
    (changeStatusAll m c ctx s faults (pre ++ x :: post)).response = failureResponse f ∧
    (∀ documentID current tlp, x.Publisher ≠ "" → x.TrackingID ≠ "" →
      (findAdvisoryRows (applyAll c ctx s pre) x.Publisher x.TrackingID).head? =
        some (documentID, current, tlp) →
      (ctx.tlps = [] ∨ m.Allowed ctx.tlps x.Publisher tlp = true) →
      m.TransitionsRoles current x.State = [] →
      (changeStatusAll m c ctx s faults (pre ++ x :: post)).response =
        JSON StatusBadRequest [("error", .str "state transition not possible")]) := by
  have hresp : (changeStatusAll m c ctx s faults (pre ++ x :: post)).response =
      failureResponse f := by
    obtain ⟨tx1, hnf1, hst1, -, hrun⟩ := Run_of_noFault m c ctx s faults hnf
    rw [← hst1] at hpre hx
    obtain ⟨t, t1, -, -, hl, -, -⟩ := loop_first_failure m c ctx tx1 pre x post f hnf1 hpre hx
    unfold changeStatusAll
    simp only [hrun, hl]
    cases f <;> rfl
  refine ⟨hresp, ?_⟩
  intro documentID current tlp hp ht hrow hscope hedge
  rw [hresp]
  have hf : f = .TransitionNotAllowedError := by
    have hb : ¬ (x.Publisher = "" ∨ x.TrackingID = "") := fun h => h.elim hp ht
    have hsc : ¬ (ctx.tlps ≠ [] ∧ m.Allowed ctx.tlps x.Publisher tlp = false) := by
      rintro ⟨h1, h2⟩
      rcases hscope with h3 | h3
      · exact h1 h3
      · rw [h2] at h3; cases h3
    unfold checkItem at hx
    rw [if_neg hb, hrow] at hx
    simp only [] at hx
    rw [if_neg hsc, if_pos hedge] at hx
    cases hx
    rfl
  rw [hf]
  rfl

theorem changeStatusAll_first_failure_witness :
    (changeStatusAll sampleModels sampleController sampleCtx sampleStore []
      ([⟨"ACME", "T-1", "read"⟩] ++ ⟨"ACME", "T-9", "read"⟩ :: [⟨"ACME", "T-2", "assessing"⟩])
      ).response = failureResponse .NotFoundError :=
  (changeStatusAll_first_failure sampleModels sampleController sampleCtx sampleStore []
    [⟨"ACME", "T-1", "read"⟩] ⟨"ACME", "T-9", "read"⟩ [⟨"ACME", "T-2", "assessing"⟩]
    .NotFoundError (by decide) (by decide) (by decide)).1

theorem eventsAll_length (c : Controller) (ctx : Context) :
    ∀ (xs : advisoryStates) (s : Store), (eventsAll c ctx s xs).length = 3 * xs.length := by
  intro xs
  induction xs with
  | nil => intro s; rfl
  | cons x xs ih =>
    intro s
    simp only [eventsAll, List.length_append, ih, itemEvents, List.length_cons, List.length_nil]
    omega

/-- C8, as the code has it: the blank check runs inside the transaction, item
by item. When no store operation fails and the items before a blank item pass
every check, the call answers 400 "bad input" and commits nothing, and the
store operations of the call are exactly: acquire a connection, begin the
transaction, then for each item before the blank one, in batch order, its
lookup, its state update and its audit insert (three operations per item), then
the rollback. No store operation is run for the blank item or the items after
it. -/
theorem changeStatusAll_blank_item (m : Models) (c : Controller) (ctx : Context) (s : Store)
    (faults : List (Option GoError)) (pre : advisoryStates) (x : advisoryState)
    (post : advisoryStates)
    (hnf : NoFault faults) (hpre : passAll m c ctx s pre = true)
    (hx : x.Publisher = "" ∨ x.TrackingID = "") :
    (changeStatusAll m c ctx s faults (pre ++ x :: post)).response =
      JSON StatusBadRequest [("error", .str "bad input")] ∧
    (changeStatusAll m c ctx s faults (pre ++ x :: post)).store = s ∧
    (changeStatusAll m c ctx s faults (pre ++ x :: post)).trace =
      [.acquire, .beginTx] ++ eventsAll c ctx s pre ++ [.rollback] ∧
    (eventsAll c ctx s pre).length = 3 * pre.length := by
  obtain ⟨tx1, hnf1, hst1, htr1, hrun⟩ := Run_of_noFault m c ctx s faults hnf
  have hchk : checkItem m ctx (applyAll c ctx tx1.store pre) x = some .ValidationError := by
    unfold checkItem
    rw [if_pos hx]
  rw [← hst1] at hpre
  obtain ⟨t, t1, -, -, hl, hv, htr⟩ :=
    loop_first_failure m c ctx tx1 pre x post .ValidationError hnf1 hpre hchk
  have ht1 := hv rfl
  subst ht1
  rw [htr1, hst1] at htr
  unfold changeStatusAll
  simp only [hrun, hl, failureResult, htr]
  exact ⟨rfl, trivial, trivial, eventsAll_length c ctx pre s⟩

theorem changeStatusAll_blank_item_witness :
    NoFault [] ∧
    passAll sampleModels sampleController sampleCtx sampleStore [⟨"ACME", "T-1", "read"⟩] = true ∧
    (changeStatusAll sampleModels sampleController sampleCtx sampleStore []
      ([⟨"ACME", "T-1", "read"⟩] ++ ⟨"", "T-2", "assessing"⟩ :: [])).trace =
      [.acquire, .beginTx] ++
        eventsAll sampleController sampleCtx sampleStore [⟨"ACME", "T-1", "read"⟩] ++
        [.rollback] :=
  ⟨by decide, by decide,
    (changeStatusAll_blank_item sampleModels sampleController sampleCtx sampleStore []
      [⟨"ACME", "T-1", "read"⟩] ⟨"", "T-2", "assessing"⟩ [] (by decide) (by decide)
      (by decide)).2.2.1⟩

set_option maxRecDepth 100000 in
/-- C8 as stated fails: on a batch whose second item is blank the transaction
is begun and the first item is looked up, updated and logged inside it before
the call is answered 400 "bad input". -/
theorem changeStatusAll_blank_reaches_store :
    (changeStatusAll sampleModels sampleController sampleCtx sampleStore []
      sampleBlank).response = JSON StatusBadRequest [("error", .str "bad input")] ∧
    (changeStatusAll sampleModels sampleController sampleCtx sampleStore []
      sampleBlank).trace =
      [.acquire, .beginTx, .queryRow findAdvisorySQL [.str "ACME", .str "T-1"],
       .exec updateStateSQL [.str "read", .str "T-1", .str "ACME"],
       .exec insertLogSQL [.str "read", .str "alice", .int 7],
       .rollback] := by
  decide

/-- C2: authorization invariant of `changeStatusAll`. On a store whose
advisories have distinct keys, for every batch, caller and fault schedule, each
state update the call executes is run on the advisories left by the updates
executed before it, and every advisory it changes goes from its current state
`a.state` to a target for which `TransitionsRoles` is non-empty and contains a
role the caller holds; the committed advisories are those of the store before
the call, or those with exactly the executed updates applied. -/
theorem changeStatusAll_updates_authorized (m : Models) (c : Controller) (ctx : Context)
    (s : Store) (faults : List (Option GoError)) (inputs : advisoryStates)
    (hkey : (s.advisories.map advisoryKey).Nodup) :
    (∀ pre p post, (changeStatusAll m c ctx s faults inputs).applied = pre ++ p :: post →
      p.1.advisories = replay s.advisories (pre.map Prod.snd) ∧
      ∀ a ∈ p.1.advisories, a.tracking_id = p.2.TrackingID → a.publisher = p.2.Publisher →
        m.TransitionsRoles a.state p.2.State ≠ [] ∧
        ∃ role ∈ m.TransitionsRoles a.state p.2.State, role ∈ ctx.roles) ∧
    ((changeStatusAll m c ctx s faults inputs).store = s ∨
      (changeStatusAll m c ctx s faults inputs).store.advisories =
        replay s.advisories ((changeStatusAll m c ctx s faults inputs).applied.map Prod.snd)) := by
  obtain ⟨tx, hinv, hap, hst⟩ := Run_inv m c ctx s faults inputs
  refine ⟨?_, ?_⟩
  · intro pre p post heq
    have heq2 : tx.applied = pre ++ p :: post := by rw [← hap]; exact heq
    obtain ⟨hsnap, hchk⟩ := hinv.snapshot pre p post heq2
    refine ⟨hsnap, ?_⟩
    intro a ha htid hpub
    obtain ⟨-, -, documentID, current, tlp, hrow, -, hroles, hheld⟩ :=
      checkItem_none m ctx p.1 p.2 hchk
    obtain ⟨a0, ha0, -, -, htid0, hpub0, hcur, -⟩ :=
      findAdvisoryRows_head p.1 p.2.Publisher p.2.TrackingID documentID current tlp hrow
    have hnodup : (p.1.advisories.map advisoryKey).Nodup := by
      rw [hsnap, replay_keys]; exact hkey
    have hsame : a = a0 :=
      List.inj_on_of_nodup_map hnodup ha ha0
        (by simp only [advisoryKey, htid, hpub, htid0, hpub0])
    rw [hsame, hcur]
    exact ⟨hroles, hheld⟩
  · rcases hst with h | h
    · exact Or.inl h
    · right
      show (Run m c ctx s faults inputs).store.advisories =
        replay s.advisories ((Run m c ctx s faults inputs).applied.map Prod.snd)
      rw [h, hap]
      exact hinv.replayed

theorem changeStatusAll_updates_authorized_witness :
    (sampleStore.advisories.map advisoryKey).Nodup ∧
    ((changeStatusAll sampleModels sampleController sampleCtx sampleStore []
        samplePassing).store = sampleStore ∨
      (changeStatusAll sampleModels sampleController sampleCtx sampleStore []
        samplePassing).store.advisories =
        replay sampleStore.advisories
          ((changeStatusAll sampleModels sampleController sampleCtx sampleStore []
            samplePassing).applied.map Prod.snd)) :=
  ⟨by decide,
    (changeStatusAll_updates_authorized sampleModels sampleController sampleCtx sampleStore []
      samplePassing (by decide)).2⟩

theorem changeStatusAll_success_witness :
    NoFault [] ∧
    passAll sampleModels sampleController sampleCtx sampleStore samplePassing = true ∧
    (changeStatusAll sampleModels sampleController sampleCtx sampleStore []
      samplePassing).response = JSON StatusOK [("message", .str "transition done")] :=
  ⟨by decide, by decide,
    (changeStatusAll_success sampleModels sampleController sampleCtx sampleStore []
      samplePassing (by decide) (by decide)).1⟩

/-! ## The handlers of `documents.go` -/

theorem filterAllowed_nil {Expr : Type} (db : Database Expr) (m : Models) (ctx : Context)
    (e : Expr) (h : ctx.tlps = []) : filterAllowed db m ctx e = .ok e := by
  simp [filterAllowed, h]

theorem filterAllowed_ok {Expr : Type} (db : Database Expr) (m : Models) (ctx : Context)
    (e t : Expr) (h : ctx.tlps ≠ []) (ht : db.Parse (m.AsConditions ctx.tlps) = .ok t) :
    filterAllowed db m ctx e = .ok (db.And e t) := by
  have hlen : ctx.tlps.length > 0 := List.length_pos.mpr h
  simp only [filterAllowed, hlen, if_true, ht]

theorem filterAllowed_error {Expr : Type} (db : Database Expr) (m : Models) (ctx : Context)
    (e : Expr) (err : GoError) (h : ctx.tlps ≠ [])
    (ht : db.Parse (m.AsConditions ctx.tlps) = .error err) :
    filterAllowed db m ctx e =
      .error (JSONValue StatusInternalServerError "error:" err.marshalled) := by
  have hlen : ctx.tlps.length > 0 := List.length_pos.mpr h
  simp only [filterAllowed, hlen, if_true, ht]

theorem firstOriginal_none (selects : Document → Bool) (docs : List Document)
    (h : ∀ d ∈ docs, selects d = false) : firstOriginal selects docs = .error ErrNoRows := by
  have hfind : docs.find? selects = none := by
    rw [List.find?_eq_none]
    intro d hd
    simp [h d hd]
  simp only [firstOriginal, hfind]

/-- A store that selects no row for the compiled expression is answered 404
"document not found" by `viewDocument`. -/
theorem viewDocumentWith_not_found {Expr : Type} (db : Database Expr) (conn : Conn)
    (docs : List Document) (expr : Expr) (selects : Document → Bool)
    (hex : ExecutesExport db conn docs expr selects)
    (h : ∀ d ∈ docs, selects d = false) :
    viewDocumentWith db conn expr =
      ⟨JSON StatusNotFound [("error", .str "document not found")],
        [.createQuerySQL
            (db.CreateQuerySQL ["original"] (db.Where expr).2.2 (db.Where expr).1 "" (-1) (-1)),
          .acquire,
          .queryRow
            (db.CreateQuerySQL ["original"] (db.Where expr).2.2 (db.Where expr).1 "" (-1) (-1))
            (db.Where expr).2.1]⟩ := by
  obtain ⟨hacq, hq⟩ := hex
  rw [firstOriginal_none selects docs h] at hq
  simp only [viewDocumentWith, hacq, hq]
  rfl

/-- C6: export indistinguishability in `viewDocument`. For a numeric id `n`
and a non-empty permitted set, let `e` be the parsed single-row filter
`id = n`, `t` the parsed confidentiality conditions, and let the store select
rows as the filter `e.And(t)` says. Then exporting from a store in which
document `n` exists but is outside the scope (`t` does not hold for it) is
answered 404 "document not found", exactly as exporting from a store without a
document `n`; in both the statement run is the one compiled from `e.And(t)`. -/
theorem viewDocument_out_of_scope_indistinguishable {Expr : Type} (db : Database Expr)
    (m : Models) (conn₁ conn₂ : Conn) (ctx : Context) (docs₁ docs₂ : List Document) (n : Int)
    (e t : Expr) (selects : Expr → Document → Bool)
    (hn : ParseInt (ctx.Param "id") = .ok n)
    (htlps : ctx.tlps ≠ [])
    (he : db.Parse (idQuery n) = .ok e)
    (ht : db.Parse (m.AsConditions ctx.tlps) = .ok t)
    (hand : ∀ d, selects (db.And e t) d = (selects e d && selects t d))
    (hide : ∀ d, selects e d = decide (d.id = n))
    (hex₁ : ExecutesExport db conn₁ docs₁ (db.And e t) (selects (db.And e t)))
    (hex₂ : ExecutesExport db conn₂ docs₂ (db.And e t) (selects (db.And e t)))
    (_hexists : ∃ d ∈ docs₁, d.id = n)
    (hout : ∀ d ∈ docs₁, d.id = n → selects t d = false)
    (hnone : ∀ d ∈ docs₂, d.id ≠ n) :
    (viewDocument db m conn₁ ctx).response =
      JSON StatusNotFound [("error", .str "document not found")] ∧
    (viewDocument db m conn₂ ctx).response = (viewDocument db m conn₁ ctx).response ∧
    (viewDocument db m conn₁ ctx).trace =
      [.createQuerySQL
          (db.CreateQuerySQL ["original"] (db.Where (db.And e t)).2.2 (db.Where (db.And e t)).1
            "" (-1) (-1)),
        .acquire,
        .queryRow
          (db.CreateQuerySQL ["original"] (db.Where (db.And e t)).2.2 (db.Where (db.And e t)).1
            "" (-1) (-1))
          (db.Where (db.And e t)).2.1] ∧
    (viewDocument db m conn₂ ctx).trace = (viewDocument db m conn₁ ctx).trace := by
  have h₁ : ∀ d ∈ docs₁, selects (db.And e t) d = false := by
    intro d hd
    rw [hand, hide]
    by_cases hdn : d.id = n
    · simp [hdn, hout d hd hdn]
    · simp [hdn]
  have h₂ : ∀ d ∈ docs₂, selects (db.And e t) d = false := by
    intro d hd
    rw [hand, hide]
    simp [hnone d hd]
  have hv₁ : viewDocument db m conn₁ ctx = viewDocumentWith db conn₁ (db.And e t) := by
    simp only [viewDocument, hn, he, filterAllowed_ok db m ctx e t htlps ht]
  have hv₂ : viewDocument db m conn₂ ctx = viewDocumentWith db conn₂ (db.And e t) := by
    simp only [viewDocument, hn, he, filterAllowed_ok db m ctx e t htlps ht]
  rw [hv₁, hv₂, viewDocumentWith_not_found db conn₁ docs₁ _ _ hex₁ h₁,
    viewDocumentWith_not_found db conn₂ docs₂ _ _ hex₂ h₂]
  exact ⟨rfl, rfl, rfl, rfl⟩

theorem viewDocument_out_of_scope_indistinguishable_witness :
    (∃ d ∈ sampleDocs, d.id = 8) ∧
    (∀ d ∈ sampleDocs, d.id = 8 → SampleExpr.holds (.tlpIs "WHITE") d = false) ∧
    (∀ d ∈ sampleDocsWithout, d.id ≠ 8) ∧
    (viewDocument sampleDatabase sampleModels emptyConn sampleExportCtx).response =
      JSON StatusNotFound [("error", .str "document not found")] :=
  ⟨by decide, by decide, by decide,
    (viewDocument_out_of_scope_indistinguishable sampleDatabase sampleModels emptyConn emptyConn
      sampleExportCtx sampleDocs sampleDocsWithout 8 (.idIs 8) (.tlpIs "WHITE") SampleExpr.holds
      rfl (by decide) rfl rfl (fun _ => rfl) (fun _ => rfl) ⟨rfl, rfl⟩ ⟨rfl, rfl⟩
      (by decide) (by decide) (by decide)).1⟩

theorem overviewAnswer_status (calcCount : Bool)
    (run : Except GoError (Int × List (List (String × AnyValue))) × List Event) :
    (overviewAnswer calcCount run).response.status = StatusInternalServerError ∨
    (overviewAnswer calcCount run).response.status = StatusOK := by
  obtain ⟨r, trace⟩ := run
  cases r with
  | error err => exact Or.inl rfl
  | ok v => exact Or.inr rfl

/-- A 400 response of `overviewDocuments` is given before any statement is
built and before the store is reached. -/
theorem overviewDocumentsWith_bad_request {Expr : Type} (db : Database Expr) (conn : Conn)
    (ctx : Context) (expr : Expr)
    (h : (overviewDocumentsWith db conn ctx expr).response.status = StatusBadRequest) :
    (overviewDocumentsWith db conn ctx expr).trace = [] := by
  unfold overviewDocumentsWith at h ⊢
  simp only [] at h ⊢
  split
  · rfl
  · rename_i hcp
    rw [hcp] at h
    simp only [] at h
    split
    · rfl
    · rename_i order hco
      rw [hco] at h
      simp only [] at h
      split
      · rfl
      · rename_i limit hlim
        rw [hlim] at h
        simp only [] at h
        split
        · rfl
        · rename_i offset hofs
          rw [hofs] at h
          simp only [] at h
          rcases overviewAnswer_status (decide (ctx.Query "count" ≠ ""))
            (overviewRun db conn (decide (ctx.Query "count" ≠ ""))
              (Fields (ctx.DefaultQuery "columns" "id title tracking_id version publisher"))
              (db.Where expr).1 (db.Where expr).2.1 (db.Where expr).2.2 order limit offset)
            with h5 | h2
          · rw [h5] at h; cases h
          · rw [h2] at h; cases h

/-- C9: projection and order rejection in `overviewDocuments`. When the query
does not parse, or `CheckProjections` fails on the requested columns, or
`CreateOrder` fails on the requested order fields (both are called with the
aliases of the expression that reached `Where()`), the response is 400, no
statement is built by `CreateQuerySQL` or `CreateCountSQL` and no store
operation is run. -/
theorem overviewDocuments_rejects_before_store {Expr : Type} (db : Database Expr) (m : Models)
    (conn : Conn) (ctx : Context) :
    (∀ err, db.Parse (ctx.DefaultQuery "query" "true") = .error err →
      (overviewDocuments db m conn ctx).response.status = StatusBadRequest ∧
      (overviewDocuments db m conn ctx).trace = []) ∧
    (∀ e expr, db.Parse (ctx.DefaultQuery "query" "true") = .ok e →
      filterAllowed db m ctx e = .ok expr →
      ((∃ err, db.CheckProjections
          (Fields (ctx.DefaultQuery "columns" "id title tracking_id version publisher"))
          (db.Where expr).2.2 = some err) ∨
        (∃ err, db.CreateOrder
          (Fields (ctx.DefaultQuery "order" "publisher tracking_id -version"))
          (db.Where expr).2.2 = .error err)) →
      (overviewDocuments db m conn ctx).response.status = StatusBadRequest ∧
      (overviewDocuments db m conn ctx).trace = []) := by
  refine ⟨fun err herr => ?_, fun e expr he hf hfail => ?_⟩
  · simp only [overviewDocuments, herr]
    exact ⟨rfl, trivial⟩
  · have hov : overviewDocuments db m conn ctx = overviewDocumentsWith db conn ctx expr := by
      simp only [overviewDocuments, he, hf]
    rw [hov]
    have hstatus : (overviewDocumentsWith db conn ctx expr).response.status =
        StatusBadRequest := by
      unfold overviewDocumentsWith
      simp only []
      cases hcp : db.CheckProjections
          (Fields (ctx.DefaultQuery "columns" "id title tracking_id version publisher"))
          (db.Where expr).2.2 with
      | some err => rfl
      | none =>
        rcases hfail with ⟨err, h1⟩ | ⟨err, h2⟩
        · rw [hcp] at h1; cases h1
        · simp only [h2]
          rfl
    exact ⟨hstatus, overviewDocumentsWith_bad_request db conn ctx expr hstatus⟩

theorem overviewDocuments_rejects_before_store_witness :
    sampleDatabase.Parse (sampleSecretCtx.DefaultQuery "query" "true") = .ok .all ∧
    sampleDatabase.CheckProjections
      (Fields (sampleSecretCtx.DefaultQuery "columns" "id title tracking_id version publisher"))
      (sampleDatabase.Where .all).2.2 = some ⟨false, "unknown field secret", some []⟩ ∧
    (overviewDocuments sampleDatabase sampleModels emptyConn sampleSecretCtx).response.status =
      StatusBadRequest ∧
    (overviewDocuments sampleDatabase sampleModels emptyConn sampleSecretCtx).trace = [] :=
  ⟨rfl, rfl,
    (overviewDocuments_rejects_before_store sampleDatabase sampleModels emptyConn
      sampleSecretCtx).2 .all .all rfl rfl (Or.inl ⟨_, rfl⟩)⟩

theorem mapSet_fresh (result : List (String × AnyValue)) (p : String) (v : AnyValue)
    (h : ∀ kv ∈ result, kv.1 ≠ p) : mapSet result p v = result ++ [(p, v)] := by
  have hany : (result.any fun kv => decide (kv.1 = p)) = false := by
    rw [List.any_eq_false]
    intro kv hkv
    simpa using h kv hkv
  simp only [mapSet, hany, Bool.false_eq_true, if_false]

/-- For distinct requested columns the map of a row pairs each column, in the
order requested, with the value at its position. -/
theorem rowMapFrom_nodup (values : List AnyValue) :
    ∀ (fields : List String) (i : Nat) (result : List (String × AnyValue)),
      fields.Nodup → (∀ p ∈ fields, ∀ kv ∈ result, kv.1 ≠ p) →
      rowMapFrom values i fields result =
        result ++ (fields.enumFrom i).map fun ip => (ip.2, values.getD ip.1 .null) := by
  intro fields
  induction fields with
  | nil => intro i result _ _; simp [rowMapFrom]
  | cons p rest ih =>
    intro i result hnd hfresh
    rw [List.nodup_cons] at hnd
    have hp : ∀ kv ∈ result, kv.1 ≠ p := hfresh p (List.mem_cons_self _ _)
    simp only [rowMapFrom, mapSet_fresh result p _ hp]
    rw [ih (i + 1) _ hnd.2]
    · simp [List.enumFrom]
    · intro q hq kv hkv
      rw [List.mem_append] at hkv
      rcases hkv with hkv | hkv
      · exact hfresh q (List.mem_cons_of_mem _ hq) kv hkv
      · simp only [List.mem_singleton] at hkv
        subst hkv
        intro heq
        simp only at heq
        subst heq
        exact hnd.1 hq

theorem scanRows_ok (fields : List String) :
    ∀ (scans : List (Except GoError (List AnyValue)))
      (acc results : List (List (String × AnyValue))),
      scanRows fields scans acc = .ok results →
      ∃ values : List (List AnyValue),
        scans = values.map Except.ok ∧ results = acc ++ values.map (rowMap fields) := by
  intro scans
  induction scans with
  | nil =>
    intro acc results h
    simp only [scanRows] at h
    cases h
    exact ⟨[], rfl, by simp⟩
  | cons sc rest ih =>
    intro acc results h
    cases sc with
    | error err => simp only [scanRows] at h; cases h
    | ok v =>
      simp only [scanRows] at h
      obtain ⟨values, h1, h2⟩ := ih _ _ h
      exact ⟨v :: values, by rw [h1]; rfl, by rw [h2]; simp⟩

/-- When the rows part of the callback succeeds, no column was requested and
there are no results, or the query ran and every row the store returned was
scanned into one map, in order. -/
theorem overviewRows_ok {Expr : Type} (db : Database Expr) (conn : Conn)
    (fields : List String) (whereSQL : String) (replacements : List AnyValue)
    (aliases : List (String × String)) (order : String) (limit offset : Int)
    (results : List (List (String × AnyValue))) (trace : List Event)
    (h : overviewRows db conn fields whereSQL replacements aliases order limit offset =
      (.ok results, trace)) :
    (fields = [] ∧ results = []) ∨
    ∃ (rows : Rows) (values : List (List AnyValue)),
      conn.Query (db.CreateQuerySQL fields aliases whereSQL order limit offset) replacements =
        .ok rows ∧
      rows.scans = values.map Except.ok ∧ rows.err = none ∧
      results = values.map (rowMap fields) := by
  unfold overviewRows at h
  by_cases hf : fields.length = 0
  · rw [if_pos hf] at h
    cases h
    exact Or.inl ⟨List.length_eq_zero.mp hf, rfl⟩
  · rw [if_neg hf] at h
    simp only [] at h
    cases hq : conn.Query (db.CreateQuerySQL fields aliases whereSQL order limit offset)
        replacements with
    | error err => rw [hq] at h; cases h
    | ok rows =>
      rw [hq] at h
      simp only [] at h
      cases hs : scanRows fields rows.scans [] with
      | error err => rw [hs] at h; cases h
      | ok res =>
        rw [hs] at h
        simp only [] at h
        cases he : rows.err with
        | some err => rw [he] at h; cases h
        | none =>
          rw [he] at h
          cases h
          obtain ⟨values, h1, h2⟩ := scanRows_ok fields rows.scans [] results hs
          exact Or.inr ⟨rows, values, rfl, h1, he, by simpa using h2⟩

/-- When the callback of `overviewDocuments` succeeds its rows part did. -/
theorem overviewRun_ok {Expr : Type} (db : Database Expr) (conn : Conn) (calcCount : Bool)
    (fields : List String) (whereSQL : String) (replacements : List AnyValue)
    (aliases : List (String × String)) (order : String) (limit offset : Int) (count : Int)
    (results : List (List (String × AnyValue))) (trace : List Event)
    (h : overviewRun db conn calcCount fields whereSQL replacements aliases order limit offset =
      (.ok (count, results), trace)) :
    ∃ trace1, overviewRows db conn fields whereSQL replacements aliases order limit offset =
      (.ok results, trace1) := by
  unfold overviewRun at h
  cases hacq : conn.acquire with
  | some err => rw [hacq] at h; cases h
  | none =>
    rw [hacq] at h
    simp only [] at h
    cases hrows : overviewRows db conn fields whereSQL replacements aliases order limit offset with
    | mk r trace1 =>
    rw [hrows] at h
    cases calcCount with
    | true =>
      simp only [if_true] at h
      cases hc : conn.QueryRowScanInt64 (db.CreateCountSQL whereSQL (decide (aliases.length > 0)))
          replacements with
      | error err => rw [hc] at h; cases h
      | ok cnt =>
        rw [hc] at h
        cases r with
        | error err => cases h
        | ok res => cases h; exact ⟨trace1, rfl⟩
    | false =>
      simp only [Bool.false_eq_true, if_false] at h
      cases r with
      | error err => cases h
      | ok res => cases h; exact ⟨trace1, rfl⟩

theorem filterAllowed_error_status {Expr : Type} (db : Database Expr) (m : Models)
    (ctx : Context) (e : Expr) (response : Response)
    (h : filterAllowed db m ctx e = .error response) :
    response.status = StatusInternalServerError := by
  unfold filterAllowed at h
  split at h
  · simp only [] at h
    split at h
    · cases h; rfl
    · cases h
  · cases h

/-- A 200 response of `overviewDocuments` comes from a callback that succeeded
and carries the body built from its count and results. -/
theorem overviewDocumentsWith_ok {Expr : Type} (db : Database Expr) (conn : Conn)
    (ctx : Context) (expr : Expr)
    (h : (overviewDocumentsWith db conn ctx expr).response.status = StatusOK) :
    ∃ (order : String) (limit offset count : Int) (results : List (List (String × AnyValue)))
      (trace : List Event),
      overviewRun db conn (decide (ctx.Query "count" ≠ ""))
        (Fields (ctx.DefaultQuery "columns" "id title tracking_id version publisher"))
        (db.Where expr).1 (db.Where expr).2.1 (db.Where expr).2.2 order limit offset =
        (.ok (count, results), trace) ∧
      (overviewDocumentsWith db conn ctx expr).response =
        JSON StatusOK (overviewBody (decide (ctx.Query "count" ≠ "")) count results) := by
  unfold overviewDocumentsWith at h ⊢
  simp only [] at h ⊢
  split
  · rename_i err hcp; rw [hcp] at h; cases h
  · rename_i hcp
    rw [hcp] at h
    simp only [] at h
    split
    · rename_i err hco; rw [hco] at h; cases h
    · rename_i order hco
      rw [hco] at h
      simp only [] at h
      split
      · rename_i err hlim; rw [hlim] at h; cases h
      · rename_i limit hlim
        rw [hlim] at h
        simp only [] at h
        split
        · rename_i err hofs; rw [hofs] at h; cases h
        · rename_i offset hofs
          rw [hofs] at h
          simp only [] at h
          cases hrun : overviewRun db conn (decide (ctx.Query "count" ≠ ""))
              (Fields (ctx.DefaultQuery "columns" "id title tracking_id version publisher"))
              (db.Where expr).1 (db.Where expr).2.1 (db.Where expr).2.2 order limit offset with
          | mk r trace =>
          rw [hrun] at h
          cases r with
          | error err => cases h
          | ok v =>
            obtain ⟨count, results⟩ := v
            exact ⟨order, limit, offset, count, results, trace, hrun, rfl⟩

/-- C10, as the code has it: shape of a successful list response. For every
list request answered 200 the body holds a `count` field exactly when the
`count` parameter has a non-empty value, and a `documents` field exactly when
there is at least one result; the results are one map per row the store
returned, in the order it returned them (and none when no column is requested),
each map pairing, for distinct requested columns, every column with the value
at its position. -/
theorem overviewDocuments_success_shape {Expr : Type} (db : Database Expr) (m : Models)
    (conn : Conn) (ctx : Context)
    (h : (overviewDocuments db m conn ctx).response.status = StatusOK) :
    ∃ (count : Int) (results : List (List (String × AnyValue))),
      (overviewDocuments db m conn ctx).response =
        JSON StatusOK
          ((if ctx.Query "count" ≠ "" then [("count", HValue.int count)] else []) ++
            (if results ≠ [] then [("documents", HValue.results results)] else [])) ∧
      ((Fields (ctx.DefaultQuery "columns" "id title tracking_id version publisher") = [] ∧
          results = []) ∨
        ∃ (sql : String) (args : List AnyValue) (rows : Rows) (values : List (List AnyValue)),
          conn.Query sql args = .ok rows ∧ rows.scans = values.map Except.ok ∧
          rows.err = none ∧
          results = values.map
            (rowMap (Fields (ctx.DefaultQuery "columns"
              "id title tracking_id version publisher")))) ∧
      ((Fields (ctx.DefaultQuery "columns" "id title tracking_id version publisher")).Nodup →
        ∀ values : List AnyValue,
          rowMap (Fields (ctx.DefaultQuery "columns" "id title tracking_id version publisher"))
            values =
          (Fields (ctx.DefaultQuery "columns" "id title tracking_id version publisher")).enum.map
            fun ip => (ip.2, values.getD ip.1 .null)) := by
  have hwith : ∃ expr, overviewDocuments db m conn ctx = overviewDocumentsWith db conn ctx expr := by
    unfold overviewDocuments at h ⊢
    simp only [] at h ⊢
    cases hp : db.Parse (ctx.DefaultQuery "query" "true") with
    | error err => rw [hp] at h; cases h
    | ok e =>
      rw [hp] at h
      simp only [] at h ⊢
      cases hf : filterAllowed db m ctx e with
      | error response =>
        rw [hf] at h
        simp only [] at h
        rw [filterAllowed_error_status db m ctx e response hf] at h
        cases h
      | ok expr => exact ⟨expr, rfl⟩
  obtain ⟨expr, hov⟩ := hwith
  rw [hov] at h ⊢
  obtain ⟨order, limit, offset, count, results, trace, hrun, hresp⟩ :=
    overviewDocumentsWith_ok db conn ctx expr h
  obtain ⟨trace1, hrows⟩ := overviewRun_ok db conn _ _ _ _ _ _ _ _ count results trace hrun
  refine ⟨count, results, ?_, ?_, ?_⟩
  · rw [hresp]
    unfold overviewBody
    by_cases hc : ctx.Query "count" ≠ "" <;> cases results <;> simp [hc]
  · rcases overviewRows_ok db conn _ _ _ _ _ _ _ results trace1 hrows with h1 | h2
    · exact Or.inl h1
    · obtain ⟨rows, values, hq, hs, he, hr⟩ := h2
      exact Or.inr ⟨_, _, rows, values, hq, hs, he, hr⟩
  · intro hnd values
    unfold rowMap
    rw [rowMapFrom_nodup values _ 0 [] hnd (fun _ _ kv hkv => by cases hkv)]
    simp [List.enum]

/-- C10 as stated fails: the default list request on a store without rows
is answered 200 with a body that has no `documents` field. -/
theorem overviewDocuments_no_rows_no_documents :
    (overviewDocuments sampleDatabase sampleModels emptyConn sampleListCtx).response =
      JSON StatusOK [] := by
  rfl

theorem overviewDocuments_success_shape_witness :
    (overviewDocuments sampleDatabase sampleModels emptyConn sampleSecretCtx).response.status =
        StatusBadRequest ∧
    ∃ (count : Int) (results : List (List (String × AnyValue))),
      (overviewDocuments sampleDatabase sampleModels emptyConn sampleListCtx).response =
        JSON StatusOK
          ((if sampleListCtx.Query "count" ≠ "" then [("count", HValue.int count)] else []) ++
            (if results ≠ [] then [("documents", HValue.results results)] else [])) :=
  ⟨rfl,
    let ⟨count, results, h, _⟩ :=
      overviewDocuments_success_shape sampleDatabase sampleModels emptyConn sampleListCtx rfl
    ⟨count, results, h⟩⟩

/-! ## What is compiled and run, and what the caller sees of a store error -/

theorem filterAllowed_composed {Expr : Type} (db : Database Expr) (m : Models) (ctx : Context)
    (e X : Expr) (h : Composed db m ctx e X) : filterAllowed db m ctx e = .ok X := by
  rcases h with ⟨h1, h2⟩ | ⟨h1, t, ht, h2⟩
  · rw [h2]; exact filterAllowed_nil db m ctx e h1
  · rw [h2]; exact filterAllowed_ok db m ctx e t h1 ht

theorem viewDocument_composed {Expr : Type} (db : Database Expr) (m : Models) (conn : Conn)
    (ctx : Context) (n : Int) (e X : Expr) (hn : ParseInt (ctx.Param "id") = .ok n)
    (he : db.Parse (idQuery n) = .ok e) (h : Composed db m ctx e X) :
    viewDocument db m conn ctx = viewDocumentWith db conn X := by
  simp only [viewDocument, hn, he, filterAllowed_composed db m ctx e X h]

theorem overviewDocuments_composed {Expr : Type} (db : Database Expr) (m : Models)
    (conn : Conn) (ctx : Context) (e X : Expr)
    (he : db.Parse (ctx.DefaultQuery "query" "true") = .ok e) (h : Composed db m ctx e X) :
    overviewDocuments db m conn ctx = overviewDocumentsWith db conn ctx X := by
  simp only [overviewDocuments, he, filterAllowed_composed db m ctx e X h]

theorem overviewDocumentsWith_checks {Expr : Type} (db : Database Expr) (conn : Conn)
    (ctx : Context) (X : Expr) (order : String) (limit offset : Int)
    (h : ChecksPass db ctx X order limit offset) :
    overviewDocumentsWith db conn ctx X =
      overviewAnswer (decide (ctx.Query "count" ≠ ""))
        (overviewRun db conn (decide (ctx.Query "count" ≠ "")) (requestedColumns ctx)
          (db.Where X).1 (db.Where X).2.1 (db.Where X).2.2 order limit offset) := by
  obtain ⟨h1, h2, h3, h4⟩ := h
  unfold requestedColumns at h1
  unfold requestedOrder at h2
  unfold overviewDocumentsWith requestedColumns
  simp only [h1, h2, h3, h4]

theorem scanRows_all_ok (fields : List String) :
    ∀ (values : List (List AnyValue)) (acc : List (List (String × AnyValue))),
      scanRows fields (values.map Except.ok) acc = .ok (acc ++ values.map (rowMap fields)) := by
  intro values
  induction values with
  | nil => intro acc; simp [scanRows]
  | cons v rest ih =>
    intro acc
    simp only [List.map_cons, scanRows, ih]
    simp

theorem scanRows_error (fields : List String) :
    ∀ (scans : List (Except GoError (List AnyValue))) (acc : List (List (String × AnyValue))),
      (∃ err : GoError, Except.error err ∈ scans) →
      ∃ err : GoError, scanRows fields scans acc = .error (err.wrap "scan failed: ") := by
  intro scans
  induction scans with
  | nil => intro acc h; obtain ⟨err, herr⟩ := h; cases herr
  | cons sc rest ih =>
    intro acc h
    cases sc with
    | error err => exact ⟨err, rfl⟩
    | ok v =>
      obtain ⟨err, herr⟩ := h
      simp only [List.mem_cons] at herr
      rcases herr with herr | herr
      · cases herr
      · exact ih _ ⟨err, herr⟩

theorem scans_all_ok (scans : List (Except GoError (List AnyValue)))
    (h : ∀ sc ∈ scans, ∃ v, sc = Except.ok v) :
    ∃ values : List (List AnyValue), scans = values.map Except.ok := by
  induction scans with
  | nil => exact ⟨[], rfl⟩
  | cons sc rest ih =>
    obtain ⟨v, hv⟩ := h sc (List.mem_cons_self _ _)
    obtain ⟨values, hvalues⟩ := ih (fun s hs => h s (List.mem_cons_of_mem _ hs))
    exact ⟨v :: values, by rw [hv, hvalues]; rfl⟩

/-- The store operations of the rows part of the callback: none when no column
is requested, else the list statement is built and run. -/
theorem overviewRows_trace {Expr : Type} (db : Database Expr) (conn : Conn)
    (fields : List String) (whereSQL : String) (replacements : List AnyValue)
    (aliases : List (String × String)) (order : String) (limit offset : Int) :
    (overviewRows db conn fields whereSQL replacements aliases order limit offset).2 =
      if fields = [] then []
      else
        [.createQuerySQL (db.CreateQuerySQL fields aliases whereSQL order limit offset),
         .query (db.CreateQuerySQL fields aliases whereSQL order limit offset) replacements] := by
  unfold overviewRows
  by_cases hf : fields = []
  · have hl : fields.length = 0 := by rw [hf]; rfl
    rw [if_pos hl, if_pos hf]
  · have hl : ¬ fields.length = 0 := fun h => hf (List.length_eq_zero.mp h)
    rw [if_neg hl, if_neg hf]
    simp only []
    cases conn.Query (db.CreateQuerySQL fields aliases whereSQL order limit offset)
        replacements with
    | error err => rfl
    | ok rows =>
      simp only []
      cases scanRows fields rows.scans [] with
      | error err => rfl
      | ok results =>
        simp only []
        cases rows.err <;> rfl

theorem overviewAnswer_trace (calcCount : Bool)
    (run : Except GoError (Int × List (List (String × AnyValue))) × List Event) :
    (overviewAnswer calcCount run).trace = run.2 := by
  obtain ⟨r, trace⟩ := run
  cases r with
  | error err => rfl
  | ok v => rfl

theorem overviewAnswer_error (calcCount : Bool)
    (run : Except GoError (Int × List (List (String × AnyValue))) × List Event) (err : GoError)
    (h : run.1 = .error err) :
    (overviewAnswer calcCount run).response =
      ⟨StatusInternalServerError, errorValueBody err⟩ := by
  obtain ⟨r, trace⟩ := run
  simp only at h
  subst h
  rfl

theorem overviewAnswer_ok (calcCount : Bool)
    (run : Except GoError (Int × List (List (String × AnyValue))) × List Event) (count : Int)
    (results : List (List (String × AnyValue))) (h : run.1 = .ok (count, results)) :
    (overviewAnswer calcCount run).response =
      JSON StatusOK (overviewBody calcCount count results) := by
  obtain ⟨r, trace⟩ := run
  simp only at h
  subst h
  rfl

/-- The outcome of the rows part of the callback when a column is requested. -/
theorem overviewRows_fst {Expr : Type} (db : Database Expr) (conn : Conn)
    (fields : List String) (whereSQL : String) (replacements : List AnyValue)
    (aliases : List (String × String)) (order : String) (limit offset : Int)
    (hf : fields ≠ []) :
    (∀ err, conn.Query (db.CreateQuerySQL fields aliases whereSQL order limit offset)
        replacements = .error err →
      (overviewRows db conn fields whereSQL replacements aliases order limit offset).1 =
        .error (err.wrap "cannot fetch results: ")) ∧
    (∀ rows, conn.Query (db.CreateQuerySQL fields aliases whereSQL order limit offset)
        replacements = .ok rows →
      ((∃ err : GoError, Except.error err ∈ rows.scans) →
        ∃ err : GoError,
          (overviewRows db conn fields whereSQL replacements aliases order limit offset).1 =
            .error (err.wrap "scan failed: ")) ∧
      (∀ values : List (List AnyValue), rows.scans = values.map Except.ok →
        (∀ err, rows.err = some err →
          (overviewRows db conn fields whereSQL replacements aliases order limit offset).1 =
            .error err) ∧
        (rows.err = none →
          (overviewRows db conn fields whereSQL replacements aliases order limit offset).1 =
            .ok (values.map (rowMap fields))))) := by
  have hl : ¬ fields.length = 0 := fun h => hf (List.length_eq_zero.mp h)
  unfold overviewRows
  rw [if_neg hl]
  simp only []
  refine ⟨fun err hq => by rw [hq], fun rows hq => ?_⟩
  rw [hq]
  simp only []
  refine ⟨fun hbad => ?_, fun values hvalues => ?_⟩
  · obtain ⟨err, herr⟩ := scanRows_error fields rows.scans [] hbad
    exact ⟨err, by rw [herr]⟩
  · rw [hvalues, scanRows_all_ok]
    simp only [List.nil_append]
    refine ⟨fun err herr => by rw [herr], fun hnone => by rw [hnone]⟩

/-- The outcome of the callback of `overviewDocuments` from that of its parts. -/
theorem overviewRun_fst {Expr : Type} (db : Database Expr) (conn : Conn) (calcCount : Bool)
    (fields : List String) (whereSQL : String) (replacements : List AnyValue)
    (aliases : List (String × String)) (order : String) (limit offset : Int) :
    (∀ err, conn.acquire = some err →
      overviewRun db conn calcCount fields whereSQL replacements aliases order limit offset =
        (.error err, [.acquire])) ∧
    (conn.acquire = none →
      (∀ err, calcCount = true →
        conn.QueryRowScanInt64 (db.CreateCountSQL whereSQL (decide (aliases.length > 0)))
          replacements = .error err →
        (overviewRun db conn calcCount fields whereSQL replacements aliases order limit
          offset).1 = .error (err.wrap "cannot calculate count ")) ∧
      ((calcCount = false ∨
          ∃ count, conn.QueryRowScanInt64
            (db.CreateCountSQL whereSQL (decide (aliases.length > 0))) replacements =
            .ok count) →
        (∀ err,
          (overviewRows db conn fields whereSQL replacements aliases order limit offset).1 =
            .error err →
          (overviewRun db conn calcCount fields whereSQL replacements aliases order limit
            offset).1 = .error err) ∧
        (calcCount = false → ∀ results,
          (overviewRows db conn fields whereSQL replacements aliases order limit offset).1 =
            .ok results →
          (overviewRun db conn calcCount fields whereSQL replacements aliases order limit
            offset).1 = .ok (0, results)))) := by
  unfold overviewRun
  refine ⟨fun err hacq => by rw [hacq], fun hacq => ?_⟩
  rw [hacq]
  simp only []
  cases hrows : overviewRows db conn fields whereSQL replacements aliases order limit offset with
  | mk r trace =>
  refine ⟨fun err hc hq => ?_, fun hcount => ⟨fun err hr => ?_, fun hc results hr => ?_⟩⟩
  · subst hc
    simp only [if_true, hq]
  · simp only at hr
    subst hr
    rcases hcount with hc | ⟨count, hq⟩
    · subst hc
      simp only [Bool.false_eq_true, if_false]
    · cases calcCount with
      | true => simp only [if_true, hq]
      | false => simp only [Bool.false_eq_true, if_false]
  · simp only at hr
    subst hr
    subst hc
    simp only [Bool.false_eq_true, if_false]

/-- The store operations of the callback of `overviewDocuments` on a store that
provides a connection are those a list request with `X` must run. -/
theorem overviewRun_trace {Expr : Type} (db : Database Expr) (conn : Conn) (ctx : Context)
    (X : Expr) (order : String) (limit offset : Int) (hacq : conn.acquire = none) :
    (overviewRun db conn (decide (ctx.Query "count" ≠ "")) (requestedColumns ctx)
      (db.Where X).1 (db.Where X).2.1 (db.Where X).2.2 order limit offset).2 =
      listEvents db conn ctx X order limit offset := by
  have hrows := overviewRows_trace db conn (requestedColumns ctx) (db.Where X).1
    (db.Where X).2.1 (db.Where X).2.2 order limit offset
  unfold overviewRun listEvents
  rw [hacq]
  simp only [countSQL, listSQL]
  cases hr : overviewRows db conn (requestedColumns ctx) (db.Where X).1 (db.Where X).2.1
      (db.Where X).2.2 order limit offset with
  | mk r trace =>
  rw [hr] at hrows
  simp only at hrows
  subst hrows
  by_cases hc : ctx.Query "count" ≠ ""
  · rw [if_pos (decide_eq_true hc), if_pos hc]
    cases conn.QueryRowScanInt64
        (db.CreateCountSQL (db.Where X).1 (decide ((db.Where X).2.2.length > 0)))
        (db.Where X).2.1 with
    | error err => rfl
    | ok count => cases r <;> rfl
  · have hd : ¬ decide (ctx.Query "count" ≠ "") = true := fun h => hc (of_decide_eq_true h)
    rw [if_neg hd, if_neg hc]
    cases r <;> rfl

/-- C5: composition of the confidentiality filter in `overviewDocuments` and
`viewDocument`. Let the user query (or the id query of an export) parse to `e`
and let `X` be `e` when the permitted set is empty and `e.And(t)`, with `t` the
parsed conditions of the permitted set, when it is not. Then `X` is the
expression whose `Where()` is compiled and run: a list request that passes the
checks runs, on a store that provides a connection, exactly the count and list
statements built from `X.Where()` with the replacements of `X`, and answers
with the rows that list statement returns; an export builds the statement from
`X.Where()` first, runs exactly it with the replacements of `X`, and answers
with the bytes it returns. With a non-empty permitted set whose conditions do
not parse, the call is answered 500 and nothing is built or run, so the filter
is never dropped. -/
theorem confidentiality_filter_composed {Expr : Type} (db : Database Expr) (m : Models)
    (conn : Conn) (ctx : Context) :
    (∀ e X, db.Parse (ctx.DefaultQuery "query" "true") = .ok e → Composed db m ctx e X →
      overviewDocuments db m conn ctx = overviewDocumentsWith db conn ctx X ∧
      ∀ order limit offset, ChecksPass db ctx X order limit offset → conn.acquire = none →
        (overviewDocuments db m conn ctx).trace = listEvents db conn ctx X order limit offset ∧
        (ctx.Query "count" = "" → requestedColumns ctx ≠ [] →
          ∀ values : List (List AnyValue),
            conn.Query (listSQL db ctx X order limit offset) (db.Where X).2.1 =
              .ok ⟨values.map Except.ok, none⟩ →
            (overviewDocuments db m conn ctx).response =
              JSON StatusOK
                (if values = [] then []
                 else [("documents",
                   HValue.results (values.map (rowMap (requestedColumns ctx))))]))) ∧
    (∀ n e X, ParseInt (ctx.Param "id") = .ok n → db.Parse (idQuery n) = .ok e →
      Composed db m ctx e X →
      viewDocument db m conn ctx = viewDocumentWith db conn X ∧
      (viewDocument db m conn ctx).trace.head? = some (.createQuerySQL (exportSQL db X)) ∧
      (conn.acquire = none →
        (viewDocument db m conn ctx).trace =
          [.createQuerySQL (exportSQL db X), .acquire,
           .queryRow (exportSQL db X) (db.Where X).2.1] ∧
        ∀ original, conn.QueryRowScanBytes (exportSQL db X) (db.Where X).2.1 = .ok original →
          (viewDocument db m conn ctx).response =
            ⟨StatusOK, .data "application/json" original
              [("Content-Disposition", "attachment; filename=\"document.json\"")]⟩)) ∧
    (ctx.tlps ≠ [] → ∀ err, db.Parse (m.AsConditions ctx.tlps) = .error err →
      (∀ e, db.Parse (ctx.DefaultQuery "query" "true") = .ok e →
        (overviewDocuments db m conn ctx).response.status = StatusInternalServerError ∧
        (overviewDocuments db m conn ctx).trace = []) ∧
      (∀ n e, ParseInt (ctx.Param "id") = .ok n → db.Parse (idQuery n) = .ok e →
        (viewDocument db m conn ctx).response.status = StatusInternalServerError ∧
        (viewDocument db m conn ctx).trace = [])) := by
  refine ⟨fun e X he hX => ?_, fun n e X hn he hX => ?_, fun htl err herr => ?_⟩
  · have hov := overviewDocuments_composed db m conn ctx e X he hX
    refine ⟨hov, fun order limit offset hchk hacq => ?_⟩
    rw [hov, overviewDocumentsWith_checks db conn ctx X order limit offset hchk]
    refine ⟨?_, fun hcount hcols values hq => ?_⟩
    · rw [overviewAnswer_trace]
      exact overviewRun_trace db conn ctx X order limit offset hacq
    · have hc : decide (ctx.Query "count" ≠ "") = false := by simp [hcount]
      rw [hc]
      have hrows := ((overviewRows_fst db conn (requestedColumns ctx) (db.Where X).1
        (db.Where X).2.1 (db.Where X).2.2 order limit offset hcols).2 _ hq).2 values rfl
      have hrow := hrows.2 rfl
      have hrun := (((overviewRun_fst db conn false (requestedColumns ctx) (db.Where X).1
        (db.Where X).2.1 (db.Where X).2.2 order limit offset).2 hacq).2 (Or.inl rfl)).2 rfl _ hrow
      rw [overviewAnswer_ok false _ 0 _ hrun]
      unfold overviewBody
      cases values <;> simp
  · have hv := viewDocument_composed db m conn ctx n e X hn he hX
    refine ⟨hv, ?_, fun hacq => ?_⟩
    · rw [hv]
      unfold viewDocumentWith exportSQL
      simp only []
      cases conn.acquire with
      | some err1 =>
        simp only []
        cases err1.noRows <;> rfl
      | none =>
        simp only []
        cases conn.QueryRowScanBytes
            (db.CreateQuerySQL ["original"] (db.Where X).2.2 (db.Where X).1 "" (-1) (-1))
            (db.Where X).2.1 with
        | error err1 =>
          simp only []
          cases err1.noRows <;> rfl
        | ok original => rfl
    · rw [hv]
      unfold viewDocumentWith exportSQL
      simp only [hacq]
      refine ⟨?_, fun original hq => by rw [hq]⟩
      cases conn.QueryRowScanBytes
          (db.CreateQuerySQL ["original"] (db.Where X).2.2 (db.Where X).1 "" (-1) (-1))
          (db.Where X).2.1 with
      | error err1 =>
        simp only []
        cases err1.noRows <;> rfl
      | ok original => rfl
  · refine ⟨fun e he => ?_, fun n e hn he => ?_⟩
    · simp only [overviewDocuments, he, filterAllowed_error db m ctx e err htl herr]
      exact ⟨rfl, trivial⟩
    · simp only [viewDocument, hn, he, filterAllowed_error db m ctx e err htl herr]
      exact ⟨rfl, trivial⟩

theorem confidentiality_filter_composed_witness :
    ParseInt (sampleExportCtx.Param "id") = .ok 8 ∧
    sampleDatabase.Parse (idQuery 8) = .ok (.idIs 8) ∧
    Composed sampleDatabase sampleModels sampleExportCtx (.idIs 8)
      (.both (.idIs 8) (.tlpIs "WHITE")) ∧
    (viewDocument sampleDatabase sampleModels emptyConn sampleExportCtx).trace =
      [.createQuerySQL (exportSQL sampleDatabase (.both (.idIs 8) (.tlpIs "WHITE"))),
       .acquire,
       .queryRow (exportSQL sampleDatabase (.both (.idIs 8) (.tlpIs "WHITE")))
         (sampleDatabase.Where (.both (.idIs 8) (.tlpIs "WHITE"))).2.1] :=
  ⟨rfl, rfl, Or.inr ⟨by decide, .tlpIs "WHITE", rfl, rfl⟩,
    (((confidentiality_filter_composed sampleDatabase sampleModels emptyConn sampleExportCtx).2.1
      8 (.idIs 8) (.both (.idIs 8) (.tlpIs "WHITE")) rfl rfl
      (Or.inr ⟨by decide, .tlpIs "WHITE", rfl, rfl⟩)).2.2 rfl).1⟩

/-- C7, as the code has it: what the caller sees of a store error. Every store
error other than "no rows" is answered with status 500, whatever its text, but
the body is not opaque. In `changeStatusAll` the body is
`{"error": <text of the error>}` (so for a failed acquire or a failed `BeginTx`,
and for any error the callback returns). In `viewDocument` the error value
itself is put in the body: the body is what `encoding/json` makes of the value
under `error`, or no body when the value cannot be marshalled. In
`overviewDocuments` an error of the count statement, of the list statement or
of a row scan is wrapped by `fmt.Errorf` and the body is `{"error": {}}`
whatever the error, while an error of `c.db.Run` or of `rows.Err()` is put in
the body as in `viewDocument`. -/
theorem store_errors_in_responses {Expr : Type} (db : Database Expr) (m : Models)
    (c : Controller) (conn : Conn) (ctx : Context) (s : Store)
    (faults : List (Option GoError)) (inputs : advisoryStates) :
    (∀ err, (Run m c ctx s faults inputs).err = some err → err.noRows = false →
      (changeStatusAll m c ctx s faults inputs).response =
        JSON StatusInternalServerError [("error", .str err.text)]) ∧
    (∀ err rest, err.noRows = false →
      (faults = some err :: rest ∨ faults = none :: some err :: rest) →
      (changeStatusAll m c ctx s faults inputs).response =
        JSON StatusInternalServerError [("error", .str err.text)]) ∧
    (∀ n e X err, ParseInt (ctx.Param "id") = .ok n → db.Parse (idQuery n) = .ok e →
      Composed db m ctx e X →
      (conn.acquire = some err ∨
        (conn.acquire = none ∧
          conn.QueryRowScanBytes (exportSQL db X) (db.Where X).2.1 = .error err)) →
      err.noRows = false →
      (viewDocument db m conn ctx).response =
        ⟨StatusInternalServerError, errorValueBody err⟩) ∧
    (∀ e X order limit offset, db.Parse (ctx.DefaultQuery "query" "true") = .ok e →
      Composed db m ctx e X → ChecksPass db ctx X order limit offset →
      (∀ err, conn.acquire = some err →
        (overviewDocuments db m conn ctx).response =
          ⟨StatusInternalServerError, errorValueBody err⟩) ∧
      (conn.acquire = none →
        (∀ err, ctx.Query "count" ≠ "" →
          conn.QueryRowScanInt64 (countSQL db X) (db.Where X).2.1 = .error err →
          (overviewDocuments db m conn ctx).response =
            JSON StatusInternalServerError [("error", .err [])]) ∧
        ((ctx.Query "count" = "" ∨
            ∃ count, conn.QueryRowScanInt64 (countSQL db X) (db.Where X).2.1 = .ok count) →
          requestedColumns ctx ≠ [] →
          (∀ err, conn.Query (listSQL db ctx X order limit offset) (db.Where X).2.1 =
              .error err →
            (overviewDocuments db m conn ctx).response =
              JSON StatusInternalServerError [("error", .err [])]) ∧
          (∀ rows, conn.Query (listSQL db ctx X order limit offset) (db.Where X).2.1 =
              .ok rows →
            ((∃ err : GoError, Except.error err ∈ rows.scans) →
              (overviewDocuments db m conn ctx).response =
                JSON StatusInternalServerError [("error", .err [])]) ∧
            (∀ err, (∀ sc ∈ rows.scans, ∃ v, sc = Except.ok v) → rows.err = some err →
              (overviewDocuments db m conn ctx).response =
                ⟨StatusInternalServerError, errorValueBody err⟩))))) := by
  refine ⟨?_, ?_, ?_, ?_⟩
  · intro err he hn
    simp only [changeStatusAll, respond, he, hn, Bool.false_eq_true, if_false]
  · intro err rest hn hf
    have herr : (Run m c ctx s faults inputs).err = some err := by
      rcases hf with hf | hf
      · rw [hf]; rfl
      · rw [hf]; rfl
    simp only [changeStatusAll, respond, herr, hn, Bool.false_eq_true, if_false]
  · intro n e X err hn he hX hfail hnr
    rw [viewDocument_composed db m conn ctx n e X hn he hX]
    unfold viewDocumentWith exportSQL at *
    rcases hfail with h | ⟨h1, h2⟩
    · simp only [h, hnr, Bool.false_eq_true, if_false]
      rfl
    · simp only [h1, h2, hnr, Bool.false_eq_true, if_false]
      rfl
  · intro e X order limit offset he hX hchk
    rw [overviewDocuments_composed db m conn ctx e X he hX,
      overviewDocumentsWith_checks db conn ctx X order limit offset hchk]
    have hrun := overviewRun_fst db conn (decide (ctx.Query "count" ≠ "")) (requestedColumns ctx)
      (db.Where X).1 (db.Where X).2.1 (db.Where X).2.2 order limit offset
    refine ⟨fun err hacq => ?_, fun hacq => ⟨fun err hc hq => ?_, fun hcount hcols => ?_⟩⟩
    · exact overviewAnswer_error _ _ err (by rw [hrun.1 err hacq])
    · exact overviewAnswer_error _ _ _ ((hrun.2 hacq).1 err (decide_eq_true hc) hq)
    · have hcount2 : decide (ctx.Query "count" ≠ "") = false ∨
          ∃ count, conn.QueryRowScanInt64
            (db.CreateCountSQL (db.Where X).1 (decide ((db.Where X).2.2.length > 0)))
            (db.Where X).2.1 = .ok count := by
        rcases hcount with h | h
        · exact Or.inl (by simp [h])
        · exact Or.inr h
      have hrun2 := ((hrun.2 hacq).2 hcount2).1
      have hrows := overviewRows_fst db conn (requestedColumns ctx) (db.Where X).1
        (db.Where X).2.1 (db.Where X).2.2 order limit offset hcols
      refine ⟨fun err hq => ?_, fun rows hq => ⟨fun hbad => ?_, fun err hall herr => ?_⟩⟩
      · exact overviewAnswer_error _ _ _ (hrun2 _ (hrows.1 err hq))
      · obtain ⟨err1, h1⟩ := (hrows.2 rows hq).1 hbad
        exact overviewAnswer_error _ _ _ (hrun2 _ h1)
      · obtain ⟨values, hvalues⟩ := scans_all_ok rows.scans hall
        exact overviewAnswer_error _ _ _
          (hrun2 _ (((hrows.2 rows hq).2 values hvalues).1 err herr))

theorem store_errors_in_responses_witness :
    sampleStoreError.noRows = false ∧
    (changeStatusAll sampleModels sampleController sampleCtx sampleStore
      [none, some sampleStoreError] samplePassing).response =
      JSON StatusInternalServerError [("error", .str "relation advisories does not exist")] ∧
    ParseInt (sampleExportCtx.Param "id") = .ok 8 ∧
    (failingConn sampleStoreError).QueryRowScanBytes
      (exportSQL sampleDatabase (.both (.idIs 8) (.tlpIs "WHITE")))
      (sampleDatabase.Where (.both (.idIs 8) (.tlpIs "WHITE"))).2.1 = .error sampleStoreError ∧
    (viewDocument sampleDatabase sampleModels (failingConn sampleStoreError)
      sampleExportCtx).response =
      ⟨StatusInternalServerError, errorValueBody sampleStoreError⟩ :=
  ⟨rfl,
    (store_errors_in_responses sampleDatabase sampleModels sampleController emptyConn sampleCtx
      sampleStore [none, some sampleStoreError] samplePassing).2.1 sampleStoreError []
      rfl (Or.inr rfl),
    rfl, rfl,
    (store_errors_in_responses sampleDatabase sampleModels sampleController
      (failingConn sampleStoreError) sampleExportCtx sampleStore [] samplePassing).2.2.1
      8 (.idIs 8) (.both (.idIs 8) (.tlpIs "WHITE")) sampleStoreError rfl rfl
      (Or.inr ⟨by decide, .tlpIs "WHITE", rfl, rfl⟩) (Or.inr ⟨rfl, rfl⟩) rfl⟩

set_option maxRecDepth 100000 in
/-- C7 as stated fails: two calls of `changeStatusAll` that differ only in the
text of the store error get different responses, each carrying the text. -/
theorem changeStatusAll_error_text_reaches_caller :
    (changeStatusAll sampleModels sampleController sampleCtx sampleStore
      [none, some sampleStoreError] samplePassing).response =
      JSON StatusInternalServerError [("error", .str "relation advisories does not exist")] ∧
    (changeStatusAll sampleModels sampleController sampleCtx sampleStore
      [none, some { sampleStoreError with text := "connection refused" }]
      samplePassing).response ≠
    (changeStatusAll sampleModels sampleController sampleCtx sampleStore
      [none, some sampleStoreError] samplePassing).response := by
  decide

end ISDuBA
